import Mathlib

/-
Verification development for the "meu_dinheiro_em_dia" personal-finance
application.  The definitions below are a shallow embedding of the Python
source files `finances/importers.py`, `finances/views.py` and
`finances/models.py`: text is modelled as `List Char`, Python `Decimal`
values as `ℚ`, dates as a record of numerals, and the Django ORM calls as
explicit list traversals over caller-supplied stores.  The theorems at the
end of the file settle the specification claims about the import pipeline
and the aggregation engine.
-/

/-- Python text is modelled as a list of characters. -/
abbrev Str := List Char

/-! ## Token-level helpers (importers.py, lines 22-32 and str methods) -/

/-- Python `str.strip()`: drop whitespace from both ends. -/
def pyStrip (s : Str) : Str :=
  ((s.dropWhile Char.isWhitespace).reverse.dropWhile Char.isWhitespace).reverse

/-- Python `text.replace('R$', '')`: delete every occurrence of the two
character currency marker, scanning left to right. -/
def stripCurrencyMarker : Str → Str
  | [] => []
  | 'R' :: '$' :: rest => stripCurrencyMarker rest
  | c :: rest => c :: stripCurrencyMarker rest

/-- Python `text.replace(a, '')` for a single character `a`. -/
def removeChar (a : Char) (s : Str) : Str :=
  s.filter (fun c => c ≠ a)

/-- Python `text.replace(a, b)` for single characters `a`, `b`. -/
def replaceChar (a b : Char) (s : Str) : Str :=
  s.map (fun c => if c = a then b else c)

/-- Python `text.rfind(ch)`: index of the last occurrence of `ch`,
`-1` when `ch` does not occur. -/
def rfind (ch : Char) : Str → Int
  | [] => -1
  | c :: rest =>
      let r := rfind ch rest
      if r ≥ 0 then r + 1 else if c = ch then 0 else -1

/-! ## Amount parsing (importers.py, `_parse_amount`, lines 110-136) -/

/-- Numeric value of a list of decimal digit characters. -/
def digitsVal (ds : Str) : Nat :=
  ds.foldl (fun n c => 10 * n + (c.toNat - 48)) 0

/-- The plain finite-literal fragment of Python `decimal.Decimal(text)`: an
optional sign, integer digits, and an optional fractional part after a
single dot, with at least one digit overall.  This fragment is what the
separator-disambiguation properties below are stated over; the complete
constructor — underscore grouping, exponents, `Infinity` and `NaN` — is
`decimalFromText`, which the import pipeline uses. -/
def parseDecimal (s : Str) : Option ℚ :=
  let signRest : Int × Str :=
    match s with
    | '-' :: r => (-1, r)
    | '+' :: r => (1, r)
    | r => (1, r)
  let sgn := signRest.1
  let rest := signRest.2
  let intPart := rest.takeWhile Char.isDigit
  let afterInt := rest.dropWhile Char.isDigit
  match afterInt with
  | [] => if intPart.isEmpty then none else some (mkRat (sgn * (digitsVal intPart : Int)) 1)
  | '.' :: fr =>
      let fracPart := fr.takeWhile Char.isDigit
      let afterFrac := fr.dropWhile Char.isDigit
      if afterFrac.isEmpty && !(intPart.isEmpty && fracPart.isEmpty) then
        some (mkRat
          (sgn * ((digitsVal intPart * 10 ^ fracPart.length + digitsVal fracPart : Nat) : Int))
          (10 ^ fracPart.length))
      else none
  | _ => none

/-- The separator-disambiguation step of `_parse_amount` (lines 120-126):
with both separators present, the one whose last occurrence comes later is
kept as the decimal point; with only a comma present, dots are stripped and
the comma becomes the decimal point; otherwise the text is unchanged. -/
def parseAmountSepNorm (text : Str) : Str :=
  if (',' ∈ text) ∧ ('.' ∈ text) then
    if rfind ',' text > rfind '.' text then
      replaceChar ',' '.' (removeChar '.' text)
    else
      removeChar ',' text
  else if ',' ∈ text then
    replaceChar ',' '.' (removeChar '.' text)
  else text

/-- The positivity gate at the end of `_parse_amount` (lines 133-134). -/
def checkPositive (q : ℚ) : Option ℚ :=
  if q ≤ 0 then none else some q

/-- The cleanup prefix of the textual branch of `_parse_amount` (line 119):
`str(raw_value).strip().replace('R$', '').replace(' ', '')`. -/
def cleanAmountText (raw : Str) : Str :=
  removeChar ' ' (stripCurrencyMarker (pyStrip raw))

/-- The textual branch of `_parse_amount` (lines 118-136) on the plain
finite-literal fragment: clean the text, disambiguate separators, parse the
decimal literal, and require a positive result; `none` models the raised
`ValueError` (`InvalidAmount`).  The full-pipeline version over the complete
`Decimal` constructor, including the `NaN` crash outcome, is
`parse_amount_result` below. -/
def parseAmountText (raw : Str) : Option ℚ :=
  match parseDecimal (parseAmountSepNorm (cleanAmountText raw)) with
  | none => none
  | some q => checkPositive q

/-- Specification-side transformation: treat `dec` as the decimal point
(rewriting it to a dot) and strip `grp` as a grouping separator. -/
def useSeparators (dec grp : Char) (s : Str) : Str :=
  (s.filter (fun c => c ≠ grp)).map (fun c => if c = dec then '.' else c)

/-- Gregorian leap-year rule, as used by Python `datetime.date`. -/
def isLeapYear (y : Nat) : Bool :=
  (y % 4 == 0 && y % 100 != 0) || y % 400 == 0

def daysInMonth (y m : Nat) : Nat :=
  if m = 2 then (if isLeapYear y then 29 else 28)
  else if m = 4 ∨ m = 6 ∨ m = 9 ∨ m = 11 then 30 else 31

/-- A calendar date as produced by `datetime.date`. -/
structure PDate where
  year : Nat
  month : Nat
  day : Nat
deriving DecidableEq, Repr

/-- The range check performed by the `datetime.date` constructor, which
`strptime` calls after its regular-expression match. -/
def validDate (y m d : Nat) : Bool :=
  decide (1 ≤ y ∧ y ≤ 9999 ∧ 1 ≤ m ∧ m ≤ 12 ∧ 1 ≤ d ∧ d ≤ daysInMonth y m)

def digitVal (c : Char) : Nat := c.toNat - 48

/-- The `%Y` directive of `strptime`: exactly four digit characters. -/
def matchYear4 : Str → Option (Nat × Str)
  | a :: b :: c :: d :: rest =>
      if a.isDigit && b.isDigit && c.isDigit && d.isDigit then
        some (digitVal a * 1000 + digitVal b * 100 + digitVal c * 10 + digitVal d, rest)
      else none
  | _ => none

/-- A one-or-two-digit numeric `strptime` directive (`%d` with `hi = 31`,
`%m` with `hi = 12`): the two-digit alternative is preferred, falling back to
the single-digit alternative when the rest of the pattern fails, mirroring
the ordered regex alternation with backtracking used by CPython. -/
def matchNum2or1 {α : Type} (hi : Nat) (k : Nat → Str → Option α) : Str → Option α
  | a :: b :: rest =>
      if a.isDigit && b.isDigit && decide (1 ≤ 10 * digitVal a + digitVal b ∧
          10 * digitVal a + digitVal b ≤ hi) then
        match k (10 * digitVal a + digitVal b) rest with
        | some r => some r
        | none =>
            if a.isDigit && decide (1 ≤ digitVal a ∧ digitVal a ≤ 9) then
              k (digitVal a) (b :: rest)
            else none
      else
        if a.isDigit && decide (1 ≤ digitVal a ∧ digitVal a ≤ 9) then
          k (digitVal a) (b :: rest)
        else none
  | [a] =>
      if a.isDigit && decide (1 ≤ digitVal a ∧ digitVal a ≤ 9) then k (digitVal a) [] else none
  | [] => none

/-- A literal character of a `strptime` format. -/
def matchLit {α : Type} (ch : Char) (k : Str → Option α) : Str → Option α
  | c :: rest => if c = ch then k rest else none
  | [] => none

/-- Structural match of format `%Y-%m-%d`, requiring full consumption. -/
def matchISO (s : Str) : Option (Nat × Nat × Nat) :=
  match matchYear4 s with
  | none => none
  | some (y, r1) =>
      matchLit '-' (matchNum2or1 12 (fun m =>
        matchLit '-' (matchNum2or1 31 (fun d r3 =>
          if r3.isEmpty then some (y, m, d) else none)))) r1

/-- Structural match of formats `%d/%m/%Y` and `%d-%m-%Y` (parameterised by the
separator), requiring full consumption. -/
def matchDMY (sep : Char) (s : Str) : Option (Nat × Nat × Nat) :=
  matchNum2or1 31 (fun d =>
    matchLit sep (matchNum2or1 12 (fun m =>
      matchLit sep (fun r =>
        match matchYear4 r with
        | some (y, r2) => if r2.isEmpty then some (y, m, d) else none
        | none => none)))) s

inductive DateFmt | iso | dmySlash | dmyDash
deriving DecidableEq, Repr

/-- One `datetime.strptime(text, fmt).date()` attempt: the structural regex
match followed by the `date` constructor range check. -/
def tryFormat (f : DateFmt) (s : Str) : Option PDate :=
  let structural :=
    match f with
    | .iso => matchISO s
    | .dmySlash => matchDMY '/' s
    | .dmyDash => matchDMY '-' s
  match structural with
  | some (y, m, d) => if validDate y m d then some ⟨y, m, d⟩ else none
  | none => none

/-- The textual loop of `_parse_date` (lines 149-156): the three formats are
tried in order and the first success wins; exhaustion models the raised
`ValueError` (`InvalidDate`). -/
def parseDateText (raw : Str) : Option PDate :=
  let text := pyStrip raw
  match tryFormat .iso text with
  | some d => some d
  | none =>
      match tryFormat .dmySlash text with
      | some d => some d
      | none => tryFormat .dmyDash text

/-- Input to `_parse_date`: a native date/datetime cell or a text cell. -/
inductive DateInput
  | native (d : PDate)
  | text (s : Str)
deriving DecidableEq, Repr

/-- `_parse_date` (lines 139-156): native date/datetime values pass through
directly; text goes through the format loop. -/
def parse_date_input : DateInput → Option PDate
  | .native d => some d
  | .text s => parseDateText s

/-- Python `str.lower()` on the character repertoire used by the app: ASCII
letters plus the Latin accented letters of Portuguese. -/
def pyLowerChar (c : Char) : Char :=
  match c with
  | 'Á' => 'á' | 'À' => 'à' | 'Â' => 'â' | 'Ã' => 'ã' | 'Ä' => 'ä'
  | 'É' => 'é' | 'È' => 'è' | 'Ê' => 'ê' | 'Ë' => 'ë'
  | 'Í' => 'í' | 'Ì' => 'ì' | 'Î' => 'î' | 'Ï' => 'ï'
  | 'Ó' => 'ó' | 'Ò' => 'ò' | 'Ô' => 'ô' | 'Õ' => 'õ' | 'Ö' => 'ö'
  | 'Ú' => 'ú' | 'Ù' => 'ù' | 'Û' => 'û' | 'Ü' => 'ü'
  | 'Ç' => 'ç' | 'Ñ' => 'ñ'
  | _ => c.toLower

/-- NFKD decomposition followed by removal of combining marks
(`unicodedata.normalize` with the combining filter, lines 26-27), modelled on
the lower-case Latin accented letters. -/
def accentFold (c : Char) : Char :=
  match c with
  | 'á' => 'a' | 'à' => 'a' | 'â' => 'a' | 'ã' => 'a' | 'ä' => 'a'
  | 'é' => 'e' | 'è' => 'e' | 'ê' => 'e' | 'ë' => 'e'
  | 'í' => 'i' | 'ì' => 'i' | 'î' => 'i' | 'ï' => 'i'
  | 'ó' => 'o' | 'ò' => 'o' | 'ô' => 'o' | 'õ' => 'o' | 'ö' => 'o'
  | 'ú' => 'u' | 'ù' => 'u' | 'û' => 'u' | 'ü' => 'u'
  | 'ç' => 'c' | 'ñ' => 'n'
  | _ => c

/-- `normalize_token` applied to text that is already a string: strip, lower,
strip diacritics. -/
def normalizeTokenStr (s : Str) : Str :=
  (pyStrip s).map (fun c => accentFold (pyLowerChar c))

/-- Python `str.lower()` on a string, used to model the case-insensitive
`name__iexact` duplicate lookup. -/
def lowerStr (s : Str) : Str := s.map pyLowerChar

/-! ## Cell values (CSV text cells and native spreadsheet cells) -/

/-- A non-`None` cell value of a row produced by the tabular reader: CSV cells
are always text; spreadsheet cells may be native numbers, dates or booleans. -/
inductive Value
  | vstr (s : Str)
  | vnum (q : ℚ)
  | vdate (d : PDate)
  | vbool (b : Bool)
deriving DecidableEq, Repr

/-- Decimal digit characters of a natural number. -/
def natToStr (n : Nat) : Str := Nat.toDigits 10 n

/-- Fractional decimal expansion of `num / den`, emitting up to `fuel`
digits (the renderings that occur in practice are finite and short). -/
def fracDigitsAux : Nat → Nat → Nat → Str
  | 0, _, _ => []
  | _ + 1, _, 0 => []
  | fuel + 1, den, num =>
      (Char.ofNat (48 + num * 10 / den)) :: fracDigitsAux fuel den (num * 10 % den)

/-- Python `str` of a numeric value (an int, float or `Decimal`). -/
def ratToStr (q : ℚ) : Str :=
  let sign : Str := if q.num < 0 then ['-'] else []
  if q.den = 1 then sign ++ natToStr q.num.natAbs
  else sign ++ natToStr (q.num.natAbs / q.den) ++
    '.' :: fracDigitsAux 40 q.den (q.num.natAbs % q.den)

/-- Two-digit zero-padded rendering. -/
def pad2 (n : Nat) : Str := if n < 10 then '0' :: natToStr n else natToStr n

/-- Python `str` of a `datetime.date`: ISO `YYYY-MM-DD`. -/
def dateToStr (d : PDate) : Str :=
  natToStr d.year ++ '-' :: (pad2 d.month ++ '-' :: pad2 d.day)

/-- Python `str()` of a cell value. -/
def pyStr : Value → Str
  | .vstr s => s
  | .vnum q => ratToStr q
  | .vdate d => dateToStr d
  | .vbool b => if b then "True".toList else "False".toList

/-- Python truthiness of a cell value (`not value`). -/
def pyFalsy : Value → Bool
  | .vstr s => s.isEmpty
  | .vnum q => decide (q = 0)
  | .vbool b => !b
  | .vdate _ => false

/-! ## Rows and field lookup (importers.py, `_get_value`, lines 169-173) -/

/-- One data row: a map from normalized header names to cell values, with
`none` modelling a Python `None` cell. -/
abbrev Row := List (Str × Option Value)

/-- Python dict lookup on a row (headers are unique, first match). -/
def rowLookup (row : Row) (k : Str) : Option (Option Value) :=
  match row with
  | [] => none
  | (k0, v) :: rest => if k0 = k then some v else rowLookup rest k

/-- The cell exclusion set of `_get_value`: `row[key] in {None, ''}`. -/
def isEmptyCell : Option Value → Bool
  | none => true
  | some (.vstr []) => true
  | some _ => false

/-- `_get_value(row, *keys)` (lines 169-173): the first key present in the row
with a value that is neither `None` nor the empty string. -/
def get_value (row : Row) : List Str → Option Value
  | [] => none
  | k :: ks =>
      match rowLookup row k with
      | some cell => if isEmptyCell cell then get_value row ks else cell
      | none => get_value row ks

/-! ## Type parsing (importers.py, `_parse_type`, lines 100-107) -/

/-- Transaction/category type codes (`models.py`, `Type` text choices). -/
inductive TxType
  | INCOME
  | EXPENSE
deriving DecidableEq, Repr

/-- ASCII upper-casing, Python `str.upper()` on the already-normalized token. -/
def asciiUpperStr (s : Str) : Str := s.map Char.toUpper

/-- `_parse_type` (lines 100-107): the normalized token is looked up among the
`TYPE_ALIASES`; failing that, its upper-casing is compared with the canonical
codes; `none` models the `None` return treated as a validation failure. -/
def parse_type (raw : Value) : Option TxType :=
  let normalized := normalizeTokenStr (pyStr raw)
  if normalized = "income".toList ∨ normalized = "receita".toList ∨
      normalized = "in".toList then some .INCOME
  else if normalized = "expense".toList ∨ normalized = "despesa".toList ∨
      normalized = "out".toList then some .EXPENSE
  else
    let upper := asciiUpperStr normalized
    if upper = "INCOME".toList then some .INCOME
    else if upper = "EXPENSE".toList then some .EXPENSE
    else none

/-! ## The full `decimal.Decimal` constructor and the amount pipeline

`parseDecimal` above covers only the plain finite-literal fragment (enough
for the separator-disambiguation properties).  The import pipeline needs the
complete constructor, because `Decimal(text)` also accepts underscore
grouping, exponent forms, `Infinity` and `NaN` — and a `NaN` amount makes
the `amount <= 0` gate of `_parse_amount` (line 133) raise
`decimal.InvalidOperation`, which `except ValueError` (line 252) does not
catch, aborting the whole import run. -/

/-- A constructed `Decimal` value: a finite number carries its sign,
coefficient and exponent (the representation, which Django's
`DecimalValidator` later inspects), besides the specials. -/
inductive PyDecimal
  | num (neg : Bool) (coeff : Nat) (exp : Int)
  | nan
  | inf (neg : Bool)
deriving DecidableEq, Repr

/-- The rational value of a finite decimal representation. -/
def decimalVal (neg : Bool) (coeff : Nat) (e : Int) : ℚ :=
  let sgn : Int := if neg then -1 else 1
  if 0 ≤ e then mkRat (sgn * coeff * ((10 ^ e.toNat : Nat) : Int)) 1
  else mkRat (sgn * coeff) (10 ^ (-e).toNat)

/-- The `NaN`/`sNaN` alternative of the `Decimal` grammar (case already
lowered): `NaN` or `sNaN` followed by optional diagnostic digits. -/
def isNanText (lower : Str) : Bool :=
  match lower with
  | 'n' :: 'a' :: 'n' :: d => d.all Char.isDigit
  | 's' :: 'n' :: 'a' :: 'n' :: d => d.all Char.isDigit
  | _ => false

/-- The optional exponent part `E[-+]?digits` of the `Decimal` grammar,
which must consume the whole remaining text; an empty remainder means no
exponent (exponent 0). -/
def decExponentPart (s : Str) : Option Int :=
  match s with
  | [] => some 0
  | c :: rest =>
      if c = 'e' ∨ c = 'E' then
        let signSplit : Int × Str :=
          match rest with
          | '-' :: r => (-1, r)
          | '+' :: r => (1, r)
          | r => (1, r)
        let ed := signSplit.2.takeWhile Char.isDigit
        let erest := signSplit.2.dropWhile Char.isDigit
        if ed.isEmpty ∨ ¬ erest.isEmpty then none
        else some (signSplit.1 * (digitsVal ed : Int))
      else none

/-- The numeric alternative of the `Decimal` grammar after the sign: an
integer part, an optional fractional part, at least one digit overall, and
an optional exponent; the constructed exponent is the written exponent minus
the number of fractional digits. -/
def decimalNumericBody (neg : Bool) (rest : Str) : Option PyDecimal :=
  let intPart := rest.takeWhile Char.isDigit
  let afterInt := rest.dropWhile Char.isDigit
  let fracSplit : Str × Str :=
    match afterInt with
    | '.' :: fr => (fr.takeWhile Char.isDigit, fr.dropWhile Char.isDigit)
    | _ => ([], afterInt)
  let fracPart := fracSplit.1
  let tail := fracSplit.2
  if (intPart ++ fracPart).isEmpty then none
  else
    match decExponentPart tail with
    | none => none
    | some e =>
        some (.num neg (digitsVal (intPart ++ fracPart)) (e - fracPart.length))

/-- The `decimal.Decimal(text)` constructor: strip surrounding whitespace,
drop underscore grouping, split the sign, then try the case-insensitive
`Infinity`/`NaN` words and the numeric grammar; `none` models a raised
`decimal.InvalidOperation` (surfaced as `ValueError` by `_parse_amount`,
line 130). -/
def decimalFromText (raw : Str) : Option PyDecimal :=
  let s := removeChar '_' (pyStrip raw)
  let signSplit : Bool × Str :=
    match s with
    | '-' :: r => (true, r)
    | '+' :: r => (false, r)
    | r => (false, r)
  let neg := signSplit.1
  let rest := signSplit.2
  let lower := rest.map Char.toLower
  if lower = "inf".toList ∨ lower = "infinity".toList then some (.inf neg)
  else if isNanText lower then some .nan
  else decimalNumericBody neg rest

/-- A parsed amount that survived the positivity gate: a finite positive
decimal with its representation, or `+Infinity` (which compares greater than
zero and only fails later, at record validation). -/
inductive ParsedAmount
  | finite (neg : Bool) (coeff : Nat) (exp : Int)
  | posInf
deriving DecidableEq, Repr

/-- The three ways `_parse_amount` can end on a cell. -/
inductive AmountResult
  | ok (a : ParsedAmount)
  | invalid
  | nanCrash
deriving DecidableEq, Repr

/-- The `if amount <= 0` gate (line 133) on a constructed decimal: finite
non-positive values and `-Infinity` raise the row-scoped `ValueError`
(line 134), `+Infinity` passes, and `NaN` makes the comparison itself raise
`decimal.InvalidOperation` — an exception `except ValueError` does not
catch. -/
def amountGate (d : PyDecimal) : AmountResult :=
  match d with
  | .num neg co e => if neg = true ∨ co = 0 then .invalid else .ok (.finite neg co e)
  | .nan => .nanCrash
  | .inf neg => if neg then .invalid else .ok .posInf

/-- The decimal representation of a rational numeric cell, as produced by
`Decimal(str(value))`: the smallest power of ten clearing the denominator
(Python `int` and `float` cells always have such a representation; the
minor `str`-rendering artefacts such as a trailing `.0` are not tracked). -/
def ratRep (q : ℚ) : Option (Bool × Nat × Int) :=
  match (List.range 64).find? (fun k => 10 ^ k % q.den = 0) with
  | some k => some (decide (q.num < 0), q.num.natAbs * (10 ^ k / q.den), -(k : Int))
  | none => none

/-- `_parse_amount` (lines 110-136) on a cell value, with all three
outcomes: native numeric cells keep their value and representation and pass
the positivity gate; anything else is stringified, cleaned, has its
separators disambiguated and goes through the `Decimal` constructor and the
gate. -/
def parse_amount_result (raw : Value) : AmountResult :=
  match raw with
  | .vnum q =>
      match ratRep q with
      | some (neg, co, e) =>
          if neg = true ∨ co = 0 then .invalid else .ok (.finite neg co e)
      | none => .invalid
  | v =>
      match decimalFromText (parseAmountSepNorm (cleanAmountText (pyStr v))) with
      | none => .invalid
      | some d => amountGate d

/-- The successful-value view of `_parse_amount`: the parsed rational when
the cell yields a finite positive decimal, `none` otherwise. -/
def parse_amount (raw : Value) : Option ℚ :=
  match parse_amount_result raw with
  | .ok (.finite neg co e) => some (decimalVal neg co e)
  | _ => none

/-- `_parse_date` (lines 139-156) on a cell value: native date/datetime cells
pass through; anything else is stringified and tried against the formats. -/
def parse_date (raw : Value) : Option PDate :=
  match raw with
  | .vdate d => some d
  | v => parseDateText (pyStr v)

/-- `_parse_bool` (lines 159-166) on an optional cell value: absent or empty
gives `false`, native booleans pass through, otherwise the normalized token
must be one of the truthy aliases. -/
def parse_bool (raw : Option Value) : Bool :=
  match raw with
  | none => false
  | some v =>
      if v = .vstr [] then false
      else
        match v with
        | .vbool b => b
        | w =>
            let normalized := normalizeTokenStr (pyStr w)
            decide (normalized = "1".toList ∨ normalized = "true".toList ∨
              normalized = "sim".toList ∨ normalized = "yes".toList ∨
              normalized = "y".toList ∨ normalized = "s".toList)

/-! ## Categories and the entity resolver (models.py and importers.py 223-228, 262-271) -/

/-- A stored `Category` record. -/
structure Category where
  id : Nat
  user : Nat
  name : Str
  type : TxType
deriving DecidableEq, Repr

/-- Index key: the lookup string paired with the category type. -/
abbrev CatKey := Str × TxType

/-- Python dict lookup on an association list built by repeated insertion:
later insertions overwrite earlier ones with the same key. -/
def assocFind (l : List (CatKey × Category)) (k : CatKey) : Option Category :=
  match l with
  | [] => none
  | (k0, c) :: rest =>
      match assocFind rest k with
      | some r => some r
      | none => if k0 = k then some c else none

/-- `categories_by_name_and_type` (lines 223-227): one index entry per category
of the user, keyed by the normalized name and the category type. -/
def nameIndex (u : Nat) (cats : List Category) : List (CatKey × Category) :=
  (cats.filter (fun c => c.user = u)).map
    (fun c => ((normalizeTokenStr c.name, c.type), c))

/-- `categories_by_id_and_type` (lines 224-228): one index entry per category
of the user, keyed by `str(category.id)` and the category type. -/
def idIndex (u : Nat) (cats : List Category) : List (CatKey × Category) :=
  (cats.filter (fun c => c.user = u)).map
    (fun c => ((natToStr c.id, c.type), c))

/-- Category resolution for one row (lines 262-266): identity lookup on the
trimmed raw reference first, then name lookup on the normalized reference,
both scoped to the parsed type. -/
def resolveCategory (u : Nat) (cats : List Category) (rawCategory : Value)
    (t : TxType) : Option Category :=
  match assocFind (idIndex u cats) (pyStrip (pyStr rawCategory), t) with
  | some c => some c
  | none => assocFind (nameIndex u cats) (normalizeTokenStr (pyStr rawCategory), t)

/-! ## Transaction import (importers.py, `import_transactions_from_file`) -/

/-- A created `Transaction` record (models.py, lines 45-59). -/
structure Transaction where
  user : Nat
  type : TxType
  amount : ℚ
  date : PDate
  categoryId : Nat
  description : Str
  notes : Str
  isRecurring : Bool
deriving DecidableEq, Repr

/-- Row-scoped error kinds of the import pipeline. -/
inductive ErrKind
  | missingFields
  | invalidType
  | invalidAmount
  | invalidDate
  | categoryNotFound
  | emptyName
  | validationFailed
deriving DecidableEq, Repr

/-- Number of digits of the coefficient digit tuple (`len(digit_tuple)`;
`Decimal('0')` has the single digit 0). -/
def natDigits10 (n : Nat) : Nat := (Nat.toDigits 10 n).length

/-- Django's `DecimalValidator` with `max_digits = 12`, `decimal_places = 2`,
on the decimal representation (it is representation-sensitive: `10.5000`
carries four decimal places and is rejected even though its value has
two). -/
def decimalValidatorOk (coeff : Nat) (e : Int) : Bool :=
  let dt := natDigits10 coeff
  let digits := if 0 ≤ e then dt + e.toNat
    else (if dt < (-e).toNat then (-e).toNat else dt)
  let decimals := if 0 ≤ e then 0 else (-e).toNat
  decide (digits ≤ 12) && decide (decimals ≤ 2) && decide (digits - decimals ≤ 10)

/-- `Transaction.full_clean` (models.py lines 67-77 plus Django field
validation) on the parsed decimal representation: positive amount, the
`DecimalField` digit bounds via `decimalValidatorOk`, the 255-character
`CharField` bound on the description, ownership and type consistency of the
category. -/
def transactionCleanOk (u : Nat) (t : TxType) (neg : Bool) (coeff : Nat)
    (e : Int) (c : Category) (description : Str) : Bool :=
  decide (¬ (neg = true ∨ coeff = 0)) && decimalValidatorOk coeff e &&
    decide (description.length ≤ 255) &&
    decide (c.user = u) && decide (c.type = t)

/-- Outcome of one transaction row: a created record, a row-scoped error, or
an uncaught exception (the `NaN` amount crash) that aborts the run. -/
inductive RowOutcome
  | created (t : Transaction)
  | failed (k : ErrKind)
  | crashed
deriving DecidableEq, Repr

def typeKeys : List Str := ["type".toList, "tipo".toList]

def amountKeys : List Str := ["amount".toList, "valor".toList]

def dateKeys : List Str := ["date".toList, "data".toList]

def categoryKeys : List Str := ["category".toList, "categoria".toList]

def descriptionKeys : List Str := ["description".toList, "descricao".toList]

def notesKeys : List Str := ["notes".toList, "observacao".toList]

def recurringKeys : List Str := ["is_recurring".toList, "recorrente".toList]

/-- Python truthiness of an optional raw value (`not raw_type`). -/
def optFalsy : Option Value → Bool
  | none => true
  | some v => pyFalsy v

/-- The `raw_amount in {None, ''}` presence test (line 239). -/
def amountAbsent : Option Value → Bool
  | none => true
  | some v => decide (v = .vstr [])

/-- `raw_description or ''` and `raw_notes or ''` (lines 235-236). -/
def orEmptyStr (v : Option Value) : Value :=
  match v with
  | none => .vstr []
  | some w => if pyFalsy w then .vstr [] else w

/-- The per-row body of `import_transactions_from_file` (lines 230-287):
field lookup, the missing-field gate, the four parses in order, category
resolution, and the guarded create. -/
def processTransactionRow (u : Nat) (cats : List Category) (row : Row) :
    RowOutcome :=
  let rawType := get_value row typeKeys
  let rawAmount := get_value row amountKeys
  let rawDate := get_value row dateKeys
  let rawCategory := get_value row categoryKeys
  let rawDescription := get_value row descriptionKeys
  let rawNotes := get_value row notesKeys
  let rawRecurring := get_value row recurringKeys
  if optFalsy rawType || amountAbsent rawAmount || optFalsy rawDate ||
      optFalsy rawCategory then .failed .missingFields
  else
    match rawType, rawAmount, rawDate, rawCategory with
    | some tv, some av, some dv, some cv =>
        match parse_type tv with
        | none => .failed .invalidType
        | some parsedType =>
            match parse_amount_result av with
            | .invalid => .failed .invalidAmount
            | .nanCrash => .crashed
            | .ok parsedAmount =>
                match parse_date dv with
                | none => .failed .invalidDate
                | some parsedDate =>
                    match resolveCategory u cats cv parsedType with
                    | none => .failed .categoryNotFound
                    | some category =>
                        let description := pyStrip (pyStr (orEmptyStr rawDescription))
                        let notes := pyStrip (pyStr (orEmptyStr rawNotes))
                        match parsedAmount with
                        | .posInf => .failed .validationFailed
                        | .finite neg co e =>
                            if transactionCleanOk u parsedType neg co e category
                                description then
                              .created ⟨u, parsedType, decimalVal neg co e,
                                parsedDate, category.id, description, notes,
                                parse_bool rawRecurring⟩
                            else .failed .validationFailed
    | _, _, _, _ => .failed .missingFields

/-- The transaction import report (lines 289-293). -/
structure TxReport where
  totalRows : Nat
  created : Nat
  errors : List (Nat × ErrKind)
deriving DecidableEq, Repr

/-- The transaction import loop: bump the created counter or append a row
error, and abort on an uncaught exception — the report is then never
returned, later rows are never processed, and the records created so far
remain (the loop has no rollback). -/
def runTxRows (u : Nat) (cats : List Category) :
    List (Nat × Row) → TxReport → List Transaction →
    Option TxReport × List Transaction
  | [], rep, txs => (some rep, txs)
  | r :: rest, rep, txs =>
      match processTransactionRow u cats r.2 with
      | .created t =>
          runTxRows u cats rest { rep with created := rep.created + 1 } (txs ++ [t])
      | .failed k =>
          runTxRows u cats rest { rep with errors := rep.errors ++ [(r.1, k)] } txs
      | .crashed => (none, txs)

/-- `import_transactions_from_file` (lines 218-293) after the reader: the
category indexes are built once, then the rows are processed sequentially;
the first component is the report (`none` when the run aborted), the second
collects the created records. -/
def import_transactions_rows (u : Nat) (cats : List Category)
    (rows : List (Nat × Row)) : Option TxReport × List Transaction :=
  runTxRows u cats rows { totalRows := rows.length, created := 0, errors := [] } []

/-! ## Category import (importers.py, `import_categories_from_file`, 176-215) -/

/-- The duplicate probe (line 200):
`Category.objects.filter(user=user, type=parsed_type, name__iexact=name).exists()`. -/
def duplicateExists (u : Nat) (store : List Category) (t : TxType) (nm : Str) :
    Bool :=
  store.any (fun c => decide (c.user = u ∧ c.type = t ∧ lowerStr c.name = lowerStr nm))

/-- A fresh primary key for a created category. -/
def nextCatId (store : List Category) : Nat :=
  store.foldl (fun acc c => max acc c.id) 0 + 1

/-- Outcome of one category row. -/
inductive CatOutcome
  | created (c : Category)
  | skipped
  | failed (k : ErrKind)
deriving DecidableEq, Repr

def nameKeys : List Str := ["name".toList, "nome".toList]

/-- The per-row body of `import_categories_from_file` (lines 182-208): field
lookup, type parse, name trim, duplicate skip, and the guarded create (whose
validation includes the 100-character `CharField` bound on the name). -/
def processCategoryRow (u : Nat) (store : List Category) (row : Row) :
    CatOutcome :=
  let nameV := get_value row nameKeys
  let typeV := get_value row typeKeys
  if optFalsy nameV || optFalsy typeV then .failed .missingFields
  else
    match nameV, typeV with
    | some nv, some tv =>
        match parse_type tv with
        | none => .failed .invalidType
        | some parsedType =>
            let categoryName := pyStrip (pyStr nv)
            if categoryName.isEmpty then .failed .emptyName
            else if duplicateExists u store parsedType categoryName then .skipped
            else if categoryName.length ≤ 100 then
              .created ⟨nextCatId store, u, categoryName, parsedType⟩
            else .failed .validationFailed
    | _, _ => .failed .missingFields

/-- The category import report (lines 210-215). -/
structure CatReport where
  totalRows : Nat
  created : Nat
  skipped : Nat
  errors : List (Nat × ErrKind)
deriving DecidableEq, Repr

/-- One step of the category import loop: unlike the transaction loop, the
store grows as rows are created, so later duplicate probes see earlier
creations of the same run. -/
def catStep (u : Nat) (acc : CatReport × List Category) (r : Nat × Row) :
    CatReport × List Category :=
  match processCategoryRow u acc.2 r.2 with
  | .created c => ({ acc.1 with created := acc.1.created + 1 }, acc.2 ++ [c])
  | .skipped => ({ acc.1 with skipped := acc.1.skipped + 1 }, acc.2)
  | .failed k => ({ acc.1 with errors := acc.1.errors ++ [(r.1, k)] }, acc.2)

/-- `import_categories_from_file` (lines 176-215) after the reader. -/
def import_categories_rows (u : Nat) (store : List Category)
    (rows : List (Nat × Row)) : CatReport × List Category :=
  rows.foldl (catStep u)
    ({ totalRows := rows.length, created := 0, skipped := 0, errors := [] }, store)

/-! ## File-format dispatch (importers.py, `read_uploaded_rows`, lines 35-41) -/

/-- An uploaded file, abstracted to its filename and the rows its tabular
content decodes to. -/
structure UploadedFile where
  filename : Str
  rows : List (Nat × Row)

/-- `read_uploaded_rows` (lines 35-41): dispatch on the lower-cased filename
extension; `none` models the raised `ValueError` (`UnsupportedFormat`). -/
def read_uploaded_rows (f : UploadedFile) : Option (List (Nat × Row)) :=
  let filename := lowerStr f.filename
  if List.isSuffixOf ".csv".toList filename then some f.rows
  else if List.isSuffixOf ".xlsx".toList filename then some f.rows
  else none

/-- `import_categories_from_file` including the reader dispatch: an
unsupported format produces no report and leaves the store untouched. -/
def import_categories_from_file (u : Nat) (store : List Category)
    (f : UploadedFile) : Option CatReport × List Category :=
  match read_uploaded_rows f with
  | none => (none, store)
  | some rows =>
      let r := import_categories_rows u store rows
      (some r.1, r.2)

/-- `import_transactions_from_file` including the reader dispatch: an
unsupported format produces no report and creates no records before any row
is read; an accepted file runs the row loop (which can itself abort on the
`NaN` crash). -/
def import_transactions_from_file (u : Nat) (cats : List Category)
    (f : UploadedFile) : Option TxReport × List Transaction :=
  match read_uploaded_rows f with
  | none => (none, [])
  | some rows => import_transactions_rows u cats rows

/-! ## Aggregation engine (views.py) -/

/-- `build_last_months` (views.py lines 62-75): the descending collection
loop, appending the current pair and stepping back one month with December
rollover. -/
def buildLastMonthsAux : Nat → Int → Int → List (Int × Int)
  | 0, _, _ => []
  | n + 1, year, month =>
      (year, month) ::
        (if month - 1 = 0 then buildLastMonthsAux n (year - 1) 12
         else buildLastMonthsAux n year (month - 1))

/-- `build_last_months(selected_year, selected_month, total)`: the collected
pairs reversed into chronological ascending order. -/
def build_last_months (selectedYear selectedMonth : Int) (total : Nat) :
    List (Int × Int) :=
  (buildLastMonthsAux total selectedYear selectedMonth).reverse

/-- The chronological predecessor of a (year, month) pair, as computed by the
loop body of `build_last_months`. -/
def prevMonth (p : Int × Int) : Int × Int :=
  if p.2 - 1 = 0 then (p.1 - 1, 12) else (p.1, p.2 - 1)

/-- The chronological successor of a (year, month) pair with months in
`[1, 12]`: January of the next year after December. -/
def nextMonth (p : Int × Int) : Int × Int :=
  if p.2 = 12 then (p.1 + 1, 1) else (p.1, p.2 + 1)

/-- One item of a `.values('category__name').annotate(total=Sum('amount'))`
queryset as consumed by `combine_category_totals`. -/
structure AggRow where
  categoryName : Option Str
  total : Option ℚ
deriving DecidableEq, Repr

/-- The placeholder bucket label of `combine_category_totals` (line 109). -/
def semCategoria : Str := "Sem categoria".toList

/-- `item.get('category__name') or 'Sem categoria'`: an absent or empty name
falls into the placeholder bucket. -/
def bucketName (n : Option Str) : Str :=
  match n with
  | none => semCategoria
  | some s => if s.isEmpty then semCategoria else s

/-- `item.get('total') or Decimal('0')`. -/
def rowTotal (t : Option ℚ) : ℚ := t.getD 0

/-- `combined[name] += total` over an insertion-ordered dict: add into the
existing entry or append a new one. -/
def upsertAdd (acc : List (Str × ℚ)) (k : Str) (v : ℚ) : List (Str × ℚ) :=
  match acc with
  | [] => [(k, v)]
  | (k0, v0) :: rest =>
      if k0 = k then (k0, v0 + v) :: rest else (k0, v0) :: upsertAdd rest k v

/-- The accumulation loop of `combine_category_totals` (lines 106-110): every
item of every queryset is added into the insertion-ordered mapping. -/
def combineMerged (querysets : List (List AggRow)) : List (Str × ℚ) :=
  querysets.foldl
    (fun acc qs =>
      qs.foldl (fun a row => upsertAdd a (bucketName row.categoryName)
        (rowTotal row.total)) acc)
    []

/-- The descending-total comparison used by the final stable sort
(`totals.sort(key=..., reverse=True)`, line 113). -/
def totalsGe (a b : Str × ℚ) : Bool := decide (b.2 ≤ a.2)

/-- `combine_category_totals` (lines 105-114): the merged mapping sorted by
descending total with a stable sort, so ties keep first-encountered
insertion order. -/
def combine_category_totals (querysets : List (List AggRow)) : List (Str × ℚ) :=
  (combineMerged querysets).mergeSort totalsGe

/-! ## Credit-card monthly summary (views.py, lines 117-162) -/

structure CreditCard where
  id : Nat
  user : Nat
  name : Str
deriving DecidableEq, Repr

structure CardExpense where
  user : Nat
  cardId : Nat
  amount : ℚ
  date : PDate
deriving DecidableEq, Repr

structure CardPayment where
  user : Nat
  cardId : Nat
  amount : ℚ
  date : PDate
deriving DecidableEq, Repr

/-- The ORM month/year restriction `date__month=m, date__year=y`. -/
def inMonth (m y : Nat) (d : PDate) : Bool := decide (d.month = m ∧ d.year = y)

/-- Lexicographic comparison on names for `order_by('name')`. -/
def strLe : Str → Str → Bool
  | [], _ => true
  | _ :: _, [] => false
  | a :: as, b :: bs => if a < b then true else if b < a then false else strLe as bs

/-- `CreditCardExpense.objects.filter(user=user, date__month=m, date__year=y)`
(lines 120-124). -/
def monthExpenses (u : Nat) (expenses : List CardExpense) (m y : Nat) :
    List CardExpense :=
  expenses.filter (fun e => decide (e.user = u) && inMonth m y e.date)

/-- `CreditCardPayment.objects.filter(user=user, date__month=m, date__year=y)`
(lines 125-129). -/
def monthPayments (u : Nat) (payments : List CardPayment) (m y : Nat) :
    List CardPayment :=
  payments.filter (fun p => decide (p.user = u) && inMonth m y p.date)

/-- The per-card expense total from the `values('card_id').annotate(total=...)`
dict combined with the `.get(card.id, Decimal('0'))` default (lines 131-142). -/
def cardExpenseTotal (u : Nat) (expenses : List CardExpense) (m y : Nat)
    (cid : Nat) : ℚ :=
  (((monthExpenses u expenses m y).filter (fun e => e.cardId = cid)).map
    (fun e => e.amount)).sum

/-- The per-card payment total (lines 135-143). -/
def cardPaymentTotal (u : Nat) (payments : List CardPayment) (m y : Nat)
    (cid : Nat) : ℚ :=
  (((monthPayments u payments m y).filter (fun p => p.cardId = cid)).map
    (fun p => p.amount)).sum

/-- One entry of `card_summaries` (lines 140-151). -/
structure CardSummary where
  cardId : Nat
  expenseTotal : ℚ
  paymentTotal : ℚ
  openBalance : ℚ
deriving DecidableEq, Repr

/-- The summary entry built for one card (lines 141-151). -/
def mkCardSummary (u : Nat) (expenses : List CardExpense)
    (payments : List CardPayment) (m y : Nat) (c : CreditCard) : CardSummary :=
  { cardId := c.id
    expenseTotal := cardExpenseTotal u expenses m y c.id
    paymentTotal := cardPaymentTotal u payments m y c.id
    openBalance := cardExpenseTotal u expenses m y c.id -
      cardPaymentTotal u payments m y c.id }

/-- The result of `build_credit_card_summary` (lines 156-162), restricted to
the data the claims are about. -/
structure CardContext where
  summaries : List CardSummary
  totalExpense : ℚ
  totalPayment : ℚ
deriving DecidableEq, Repr

/-- `build_credit_card_summary(user, selected_month, selected_year)`
(lines 117-162): one summary entry per card of the user (ordered by name),
plus the sums of the per-card totals. -/
def build_credit_card_summary (u : Nat) (cards : List CreditCard)
    (expenses : List CardExpense) (payments : List CardPayment) (m y : Nat) :
    CardContext :=
  let userCards := ((cards.filter (fun c => c.user = u)).mergeSort
    (fun a b => strLe a.name b.name))
  let summaries := userCards.map (mkCardSummary u expenses payments m y)
  { summaries := summaries
    totalExpense := (summaries.map (fun s => s.expenseTotal)).sum
    totalPayment := (summaries.map (fun s => s.paymentTotal)).sum }

/-! ## Lemmas about the trailing-month series -/

/-- Months stay within `[1, 12]`. -/
def monthOk (p : Int × Int) : Prop := 1 ≤ p.2 ∧ p.2 ≤ 12

/-- The row outcome projected to a created record. -/
def outcomeRecord (u : Nat) (cats : List Category) (r : Nat × Row) :
    Option Transaction :=
  match processTransactionRow u cats r.2 with
  | .created t => some t
  | _ => none

/-- The row outcome projected to a row error. -/
def outcomeError (u : Nat) (cats : List Category) (r : Nat × Row) :
    Option (Nat × ErrKind) :=
  match processTransactionRow u cats r.2 with
  | .failed k => some (r.1, k)
  | _ => none

/-- Total attributed to key `k` in a totals list (keys may repeat; the sum
over all entries with that key). -/
def keyTotal (l : List (Str × ℚ)) (k : Str) : ℚ :=
  ((l.filter (fun e => e.1 = k)).map (fun e => e.2)).sum

/-- Total contributed to key `k` by a list of aggregation rows. -/
def contribTotal (items : List AggRow) (k : Str) : ℚ :=
  ((items.filter (fun row => bucketName row.categoryName = k)).map
    (fun row => rowTotal row.total)).sum

/-- The store-independent fragment of `processCategoryRow`: the field lookups,
the type parse and the name trim, returning the trimmed name and parsed type
when every static check passes. -/
def categoryRowParse (row : Row) : Option (Str × TxType) :=
  let nameV := get_value row nameKeys
  let typeV := get_value row typeKeys
  if optFalsy nameV || optFalsy typeV then none
  else
    match nameV, typeV with
    | some nv, some tv =>
        match parse_type tv with
        | none => none
        | some parsedType =>
            let categoryName := pyStrip (pyStr nv)
            if categoryName.isEmpty then none
            else some (categoryName, parsedType)
    | _, _ => none

/-- A category equivalent to `(nm, pt)` for the duplicate probe already exists
in the store. -/
def covers (u : Nat) (store : List Category) (nm : Str) (pt : TxType) : Prop :=
  ∃ c ∈ store, c.user = u ∧ c.type = pt ∧ lowerStr c.name = lowerStr nm

/-! ## Concrete fixtures for the import-run properties -/

/-- A data row whose amount cell is the text `nan`: `Decimal('nan')` is a
valid NaN, and the `amount <= 0` gate then raises `InvalidOperation`. -/
def nanAmountRow : Nat × Row :=
  (2, [("type".toList, some (Value.vstr "income".toList)),
    ("amount".toList, some (Value.vstr "nan".toList)),
    ("date".toList, some (Value.vstr "2026-02-05".toList)),
    ("category".toList, some (Value.vstr "Salario".toList))])

/-- A well-formed data row that would import cleanly. -/
def okAmountRow : Nat × Row :=
  (3, [("type".toList, some (Value.vstr "income".toList)),
    ("amount".toList, some (Value.vstr "10".toList)),
    ("date".toList, some (Value.vstr "2026-02-05".toList)),
    ("category".toList, some (Value.vstr "Salario".toList))])

/-- A category store with the single income category `Salario` of user 7. -/
def salarioCats : List Category := [⟨1, 7, "Salario".toList, .INCOME⟩]

/-- A format-accepted CSV file whose first data row has the `nan` amount and
whose second is valid. -/
def nanAmountFile : UploadedFile :=
  ⟨"lancamentos.csv".toList, [nanAmountRow, okAmountRow]⟩

/-! ## Theorems -/

theorem replaceRemove_eq_useSeparators (t : Str) :
    replaceChar ',' '.' (removeChar '.' t) = useSeparators ',' '.' t := rfl

theorem map_keepDot_id (t : Str) :
    t.map (fun c => if c = '.' then '.' else c) = t := by
  induction t with
  | nil => rfl
  | cons c rest ih =>
      simp only [List.map_cons, ih]
      by_cases h : c = '.'
      · simp [h]
      · simp [h]

theorem remove_eq_useSeparators (t : Str) :
    removeChar ',' t = useSeparators '.' ',' t := by
  unfold removeChar useSeparators
  rw [map_keepDot_id]

theorem filter_eq_self_of_not_mem {a : Char} {t : Str} (h : a ∉ t) :
    removeChar a t = t := by
  unfold removeChar
  rw [List.filter_eq_self]
  intro b hb
  simp only [ne_eq, decide_eq_true_eq]
  rintro rfl
  exact h hb

/-- C1: when both separators occur in an amount text, the one occurring last is
treated as the decimal point and the other is stripped as a grouping separator;
with only a comma, the comma is the decimal point; the three reference inputs
parse to 1234.56, 1234.56 and 10.5; and any text whose parsed value is not a
valid decimal literal or is not positive fails with an `InvalidAmount` error. -/
theorem amount_separator_rule :
    (∀ t : Str, ',' ∈ t → '.' ∈ t → rfind ',' t > rfind '.' t →
        parseAmountSepNorm t = useSeparators ',' '.' t) ∧
    (∀ t : Str, ',' ∈ t → '.' ∈ t → rfind '.' t > rfind ',' t →
        parseAmountSepNorm t = useSeparators '.' ',' t) ∧
    (∀ t : Str, ',' ∈ t → '.' ∉ t →
        parseAmountSepNorm t = useSeparators ',' '.' t) ∧
    parseAmountText "1.234,56".toList = some (mkRat 123456 100) ∧
    parseAmountText "1,234.56".toList = some (mkRat 123456 100) ∧
    parseAmountText "10,5".toList = some (mkRat 105 10) ∧
    (∀ raw : Str, ∀ q : ℚ,
        parseDecimal (parseAmountSepNorm (cleanAmountText raw)) = some q → q ≤ 0 →
        parseAmountText raw = none) ∧
    (∀ raw : Str,
        parseDecimal (parseAmountSepNorm (cleanAmountText raw)) = none →
        parseAmountText raw = none) ∧
    parseAmountText "0".toList = none ∧
    parseAmountText "-5".toList = none := by
  refine ⟨?_, ?_, ?_, by decide, by decide, by decide, ?_, ?_, by decide, by decide⟩
  · intro t h1 h2 h3
    unfold parseAmountSepNorm
    rw [if_pos (⟨h1, h2⟩ : (',' ∈ t) ∧ ('.' ∈ t)), if_pos h3]
    exact replaceRemove_eq_useSeparators t
  · intro t h1 h2 h3
    unfold parseAmountSepNorm
    rw [if_pos (⟨h1, h2⟩ : (',' ∈ t) ∧ ('.' ∈ t)), if_neg (lt_asymm h3)]
    exact remove_eq_useSeparators t
  · intro t h1 h2
    unfold parseAmountSepNorm
    rw [if_neg (fun hc => h2 hc.2), if_pos h1]
    exact replaceRemove_eq_useSeparators t
  · intro raw q h hle
    unfold parseAmountText
    rw [h]
    simp only [checkPositive, if_pos hle]
  · intro raw h
    unfold parseAmountText
    rw [h]

theorem amount_separator_rule_witness :
    (',' ∈ "1.234,56".toList ∧ '.' ∈ "1.234,56".toList ∧
      rfind ',' "1.234,56".toList > rfind '.' "1.234,56".toList ∧
      parseAmountSepNorm "1.234,56".toList = useSeparators ',' '.' "1.234,56".toList) ∧
    (rfind '.' "1,234.56".toList > rfind ',' "1,234.56".toList ∧
      parseAmountSepNorm "1,234.56".toList = useSeparators '.' ',' "1,234.56".toList) ∧
    (parseAmountSepNorm "10,5".toList = useSeparators ',' '.' "10,5".toList) ∧
    parseAmountText "0".toList = none :=
  ⟨⟨by decide, by decide, by decide,
      amount_separator_rule.1 "1.234,56".toList (by decide) (by decide) (by decide)⟩,
    ⟨by decide,
      amount_separator_rule.2.1 "1,234.56".toList (by decide) (by decide) (by decide)⟩,
    amount_separator_rule.2.2.1 "10,5".toList (by decide) (by decide),
    amount_separator_rule.2.2.2.2.2.2.1 "0".toList (mkRat 0 1) (by decide) (by decide)⟩

/-- C10: an amount text containing a dot but no comma keeps the dot as the
decimal point — nothing is stripped as a thousands separator, so `"1.234"`
parses to the value 1.234 and not to 1234 — while a comma-only text has the
comma rewritten into the decimal point. -/
theorem amount_dot_only_rule :
    (∀ t : Str, '.' ∈ t → ',' ∉ t → parseAmountSepNorm t = t) ∧
    parseAmountText "1.234".toList = some (mkRat 1234 1000) ∧
    parseAmountText "1.234".toList ≠ some (mkRat 1234 1) ∧
    (∀ t : Str, ',' ∈ t → '.' ∉ t → parseAmountSepNorm t = replaceChar ',' '.' t) := by
  refine ⟨?_, by decide, by decide, ?_⟩
  · intro t _ h2
    unfold parseAmountSepNorm
    rw [if_neg (fun hc => h2 hc.1), if_neg h2]
  · intro t h1 h2
    unfold parseAmountSepNorm
    rw [if_neg (fun hc => h2 hc.2), if_pos h1, filter_eq_self_of_not_mem h2]

/-! ## Date parsing (importers.py, `_parse_date`, lines 139-156) -/

theorem buildLastMonthsAux_succ (n : Nat) (y m : Int) :
    buildLastMonthsAux (n + 1) y m =
      (y, m) :: buildLastMonthsAux n (prevMonth (y, m)).1 (prevMonth (y, m)).2 := by
  rw [buildLastMonthsAux]
  simp only [prevMonth]
  by_cases h : m - 1 = 0
  · simp [h]
  · simp [h]

theorem buildLastMonthsAux_eq_range_map (n : Nat) :
    ∀ y m : Int, buildLastMonthsAux n y m =
      (List.range n).map (fun i => prevMonth^[i] (y, m)) := by
  induction n with
  | zero => intro y m; rfl
  | succ k ih =>
      intro y m
      rw [buildLastMonthsAux_succ, ih, List.range_succ_eq_map, List.map_cons,
        List.map_map]
      refine congrArg₂ List.cons (by simp) ?_
      apply List.map_congr_left
      intro i _
      simp only [Function.comp_apply, Function.iterate_succ_apply]

theorem monthOk_prevMonth {p : Int × Int} (h : monthOk p) : monthOk (prevMonth p) := by
  obtain ⟨y, m⟩ := p
  simp only [monthOk] at h ⊢
  simp only [prevMonth]
  by_cases hm : m - 1 = 0
  · simp only [if_pos hm]
    constructor <;> norm_num
  · simp only [if_neg hm]
    refine ⟨?_, ?_⟩ <;> dsimp only <;> omega

theorem monthOk_iterate_prevMonth {p : Int × Int} (h : monthOk p) (k : Nat) :
    monthOk (prevMonth^[k] p) := by
  induction k with
  | zero => simpa using h
  | succ j ih =>
      rw [Function.iterate_succ_apply']
      exact monthOk_prevMonth ih

theorem nextMonth_prevMonth {p : Int × Int} (h : monthOk p) :
    nextMonth (prevMonth p) = p := by
  obtain ⟨y, m⟩ := p
  simp only [monthOk] at h
  simp only [prevMonth, nextMonth]
  split_ifs with h1 h2 h3
  · rw [Prod.mk.injEq]
    omega
  · exact absurd rfl h2
  · exfalso
    omega
  · rw [Prod.mk.injEq]
    omega

/-- C8: for a selected (year, month) with the month in `[1, 12]` and any count
`N ≥ 1`, `build_last_months` returns the `N` most recent (year, month) pairs
ending at the selection in chronological ascending order, rolling January
over to December of the previous year; from (2026, 1) with count 3 it yields
`[(2025, 11), (2025, 12), (2026, 1)]`. -/
theorem trailing_month_series (y m : Int) (n : Nat)
    (hm1 : 1 ≤ m) (hm2 : m ≤ 12) (hn : 1 ≤ n) :
    (build_last_months y m n).length = n ∧
    (build_last_months y m n).getLast? = some (y, m) ∧
    (∀ i : Nat, ∀ p q : Int × Int,
        (build_last_months y m n)[i]? = some q →
        (build_last_months y m n)[i + 1]? = some p →
        p = nextMonth q) ∧
    build_last_months 2026 1 3 = [(2025, 11), (2025, 12), (2026, 1)] := by
  have haux : buildLastMonthsAux n y m =
      (List.range n).map (fun i => prevMonth^[i] (y, m)) :=
    buildLastMonthsAux_eq_range_map n y m
  have hlen2 : (buildLastMonthsAux n y m).length = n := by
    rw [haux, List.length_map, List.length_range]
  have hlen : (build_last_months y m n).length = n := by
    unfold build_last_months
    rw [List.length_reverse, hlen2]
  refine ⟨hlen, ?_, ?_, by decide⟩
  · unfold build_last_months
    rw [List.getLast?_reverse]
    obtain ⟨k, rfl⟩ : ∃ k, n = k + 1 := ⟨n - 1, by omega⟩
    rw [buildLastMonthsAux_succ]
    rfl
  · intro i p q hq hp
    have hi1 : i + 1 < n := by
      by_contra hc
      have hnone : (build_last_months y m n)[i + 1]? = none := by
        apply List.getElem?_eq_none
        rw [hlen]
        omega
      rw [hnone] at hp
      exact Option.noConfusion hp
    have hi0 : i < n := by omega
    unfold build_last_months at hq hp
    rw [List.getElem?_reverse (by rw [hlen2]; omega), hlen2, haux,
      List.getElem?_map, List.getElem?_range (by omega)] at hq
    rw [List.getElem?_reverse (by rw [hlen2]; omega), hlen2, haux,
      List.getElem?_map, List.getElem?_range (by omega)] at hp
    simp only [Option.map_some', Option.some.injEq] at hq hp
    have hk : n - 1 - i = (n - 1 - (i + 1)) + 1 := by omega
    rw [hk, Function.iterate_succ_apply'] at hq
    rw [hp] at hq
    have hok : monthOk p := by
      rw [← hp]
      exact monthOk_iterate_prevMonth ⟨hm1, hm2⟩ _
    rw [← hq, nextMonth_prevMonth hok]

theorem trailing_month_series_witness :
    (1 : Int) ≤ 1 ∧ (1 : Int) ≤ 12 ∧ (1 : Nat) ≤ 3 ∧
    (build_last_months 2026 1 3).length = 3 ∧
    build_last_months 2026 1 3 = [(2025, 11), (2025, 12), (2026, 1)] :=
  ⟨by decide, by decide, by decide,
    (trailing_month_series 2026 1 3 (by decide) (by decide) (by decide)).1,
    (trailing_month_series 2026 1 3 (by decide) (by decide) (by decide)).2.2.2⟩

/-- C9: an uploaded file whose lower-cased filename ends in neither `.csv`
nor `.xlsx` fails with `UnsupportedFormat` before any row is read — no report
is produced, the category store is untouched and no transaction is created —
while any accepted file is processed to completion, always yielding a
report, so format detection is the only fatal failure of a run. -/
theorem parse_amount_some_rep {av : Value} {pa : ℚ} (h : parse_amount av = some pa) :
    ∃ neg : Bool, ∃ co : Nat, ∃ e : Int,
      parse_amount_result av = .ok (.finite neg co e) ∧ decimalVal neg co e = pa := by
  unfold parse_amount at h
  cases hres : parse_amount_result av with
  | ok a =>
      cases a with
      | finite neg co e =>
          rw [hres] at h
          injection h with h
          exact ⟨neg, co, e, rfl, h⟩
      | posInf =>
          rw [hres] at h
          exact Option.noConfusion h
  | invalid =>
      rw [hres] at h
      exact Option.noConfusion h
  | nanCrash =>
      rw [hres] at h
      exact Option.noConfusion h

/-! ## Lemmas about the category indexes -/

theorem assocFind_mem {l : List (CatKey × Category)} {k : CatKey} {c : Category}
    (h : assocFind l k = some c) : (k, c) ∈ l := by
  induction l with
  | nil => exact absurd h (by simp [assocFind])
  | cons hd tl ih =>
      obtain ⟨k0, c0⟩ := hd
      unfold assocFind at h
      cases htl : assocFind tl k with
      | some r =>
          rw [htl] at h
          injection h with h
          subst h
          exact List.mem_cons_of_mem _ (ih htl)
      | none =>
          rw [htl] at h
          by_cases hk : k0 = k
          · rw [if_pos hk] at h
            injection h with h
            subst h
            subst hk
            exact List.mem_cons_self _ _
          · rw [if_neg hk] at h
            exact Option.noConfusion h

theorem idIndex_sound {u : Nat} {cats : List Category} {s : Str} {t : TxType}
    {c : Category} (h : assocFind (idIndex u cats) (s, t) = some c) :
    c.type = t ∧ c.user = u ∧ c ∈ cats := by
  have hmem := assocFind_mem h
  unfold idIndex at hmem
  obtain ⟨a, ha, heq⟩ := List.mem_map.mp hmem
  obtain ⟨ha1, ha2⟩ := List.mem_filter.mp ha
  have hval : a = c := congrArg Prod.snd heq
  have hkey : (natToStr a.id, a.type) = (s, t) := congrArg Prod.fst heq
  have ht : a.type = t := congrArg Prod.snd hkey
  subst hval
  exact ⟨ht, by simpa using ha2, ha1⟩

theorem nameIndex_sound {u : Nat} {cats : List Category} {s : Str} {t : TxType}
    {c : Category} (h : assocFind (nameIndex u cats) (s, t) = some c) :
    c.type = t ∧ c.user = u ∧ c ∈ cats := by
  have hmem := assocFind_mem h
  unfold nameIndex at hmem
  obtain ⟨a, ha, heq⟩ := List.mem_map.mp hmem
  obtain ⟨ha1, ha2⟩ := List.mem_filter.mp ha
  have hval : a = c := congrArg Prod.snd heq
  have hkey : (normalizeTokenStr a.name, a.type) = (s, t) := congrArg Prod.fst heq
  have ht : a.type = t := congrArg Prod.snd hkey
  subst hval
  exact ⟨ht, by simpa using ha2, ha1⟩

/-- C2: category resolution is scoped to (owner, parsed type) and tries
identity before name: a resolved category always belongs to the owner, has
exactly the parsed type and comes from the store; a successful identity
lookup short-circuits the name lookup; an `EXPENSE` category named `Food`
does not resolve for an `INCOME` row; and an unresolved reference makes the
row fail with a `CategoryNotFound` row error rather than a crash. -/
theorem category_resolution_scoped :
    (∀ u : Nat, ∀ cats : List Category, ∀ raw : Value, ∀ t : TxType, ∀ c : Category,
        resolveCategory u cats raw t = some c →
        c.type = t ∧ c.user = u ∧ c ∈ cats) ∧
    (∀ u : Nat, ∀ cats : List Category, ∀ raw : Value, ∀ t : TxType, ∀ c : Category,
        assocFind (idIndex u cats) (pyStrip (pyStr raw), t) = some c →
        resolveCategory u cats raw t = some c) ∧
    (∀ u : Nat, ∀ cats : List Category, ∀ raw : Value, ∀ t : TxType,
        assocFind (idIndex u cats) (pyStrip (pyStr raw), t) = none →
        resolveCategory u cats raw t =
          assocFind (nameIndex u cats) (normalizeTokenStr (pyStr raw), t)) ∧
    resolveCategory 7 [⟨1, 7, "Food".toList, .EXPENSE⟩]
      (.vstr "Food".toList) .INCOME = none ∧
    (∀ u : Nat, ∀ cats : List Category, ∀ row : Row,
        ∀ tv av dv cv : Value, ∀ pt : TxType, ∀ pa : ℚ, ∀ pd : PDate,
        get_value row typeKeys = some tv →
        get_value row amountKeys = some av →
        get_value row dateKeys = some dv →
        get_value row categoryKeys = some cv →
        pyFalsy tv = false → av ≠ .vstr [] → pyFalsy dv = false →
        pyFalsy cv = false →
        parse_type tv = some pt →
        parse_amount av = some pa →
        parse_date dv = some pd →
        resolveCategory u cats cv pt = none →
        processTransactionRow u cats row = .failed .categoryNotFound) := by
  refine ⟨?_, ?_, ?_, by decide, ?_⟩
  · intro u cats raw t c h
    unfold resolveCategory at h
    cases hid : assocFind (idIndex u cats) (pyStrip (pyStr raw), t) with
    | some c1 =>
        rw [hid] at h
        injection h with h
        subst h
        exact idIndex_sound hid
    | none =>
        rw [hid] at h
        exact nameIndex_sound h
  · intro u cats raw t c h
    unfold resolveCategory
    rw [h]
  · intro u cats raw t h
    unfold resolveCategory
    rw [h]
  · intro u cats row tv av dv cv pt pa pd hty ham hda hca hft hfa hfd hfc
      hpt hpa hpd hre
    obtain ⟨neg, co, e, hres, _⟩ := parse_amount_some_rep hpa
    have hfa2 : amountAbsent (some av) = false := by
      simp [amountAbsent, hfa]
    simp only [processTransactionRow, hty, ham, hda, hca, optFalsy, hfa2, hft,
      hfd, hfc, Bool.or_self, Bool.or_false, Bool.false_or, Bool.false_eq_true,
      if_false, hpt, hres, hpd, hre]

theorem category_resolution_scoped_witness :
    resolveCategory 7 [⟨1, 7, "Food".toList, .EXPENSE⟩]
        (.vstr "Food".toList) .EXPENSE =
      some ⟨1, 7, "Food".toList, .EXPENSE⟩ ∧
    (⟨1, 7, "Food".toList, .EXPENSE⟩ : Category).type = TxType.EXPENSE ∧
    processTransactionRow 7 [⟨1, 7, "Food".toList, .EXPENSE⟩]
        [("type".toList, some (.vstr "income".toList)),
          ("amount".toList, some (.vstr "10".toList)),
          ("date".toList, some (.vstr "2026-02-05".toList)),
          ("category".toList, some (.vstr "Food".toList))] =
      .failed .categoryNotFound :=
  ⟨by decide,
    (category_resolution_scoped.1 7 [⟨1, 7, "Food".toList, .EXPENSE⟩]
        (.vstr "Food".toList) .EXPENSE ⟨1, 7, "Food".toList, .EXPENSE⟩
        (by decide)).1,
    category_resolution_scoped.2.2.2.2 7 [⟨1, 7, "Food".toList, .EXPENSE⟩] _
      (.vstr "income".toList) (.vstr "10".toList)
      (.vstr "2026-02-05".toList) (.vstr "Food".toList)
      .INCOME (mkRat 10 1) ⟨2026, 2, 5⟩
      (by decide) (by decide) (by decide) (by decide) (by decide) (by decide)
      (by decide) (by decide) (by decide) (by decide) (by decide) (by decide)⟩

/-! ## Lemmas about the transaction import loop -/

theorem runTxRows_completed (u : Nat) (cats : List Category) :
    ∀ (rows : List (Nat × Row)) (rep : TxReport) (txs : List Transaction)
      (rep2 : TxReport) (txs2 : List Transaction),
      runTxRows u cats rows rep txs = (some rep2, txs2) →
      rep2.totalRows = rep.totalRows ∧
      rep2.created + rep2.errors.length =
        rep.created + rep.errors.length + rows.length ∧
      txs2 = txs ++ rows.filterMap (outcomeRecord u cats) ∧
      rep2.errors = rep.errors ++ rows.filterMap (outcomeError u cats) ∧
      rep2.created + txs.length = rep.created + txs2.length := by
  intro rows
  induction rows with
  | nil =>
      intro rep txs rep2 txs2 h
      simp only [runTxRows] at h
      have h1 : some rep = some rep2 := congrArg Prod.fst h
      have h2 : txs = txs2 := congrArg Prod.snd h
      injection h1 with h1
      subst h1
      subst h2
      simp
  | cons r rest ih =>
      intro rep txs rep2 txs2 h
      rw [List.filterMap_cons, List.filterMap_cons]
      cases hout : processTransactionRow u cats r.2 with
      | created t =>
          simp only [runTxRows, hout] at h
          obtain ⟨ih1, ih2, ih3, ih4, ih5⟩ := ih _ _ _ _ h
          dsimp only at ih1 ih2 ih3 ih4 ih5
          refine ⟨ih1, by rw [ih2]; simp; omega, ?_, ?_, ?_⟩
          · rw [ih3]
            simp [outcomeRecord, hout]
          · rw [ih4]
            simp [outcomeError, hout]
          · rw [List.length_append] at ih5
            simp at ih5
            omega
      | failed k =>
          simp only [runTxRows, hout] at h
          obtain ⟨ih1, ih2, ih3, ih4, ih5⟩ := ih _ _ _ _ h
          dsimp only at ih1 ih2 ih3 ih4 ih5
          refine ⟨ih1, by rw [ih2]; simp; omega, ?_, ?_, ?_⟩
          · rw [ih3]
            simp [outcomeRecord, hout]
          · rw [ih4]
            simp [outcomeError, hout, List.append_assoc]
          · omega
      | crashed =>
          simp only [runTxRows, hout] at h
          have h1 : (none : Option TxReport) = some rep2 := congrArg Prod.fst h
          exact Option.noConfusion h1

theorem runTxRows_none_iff (u : Nat) (cats : List Category) :
    ∀ (rows : List (Nat × Row)) (rep : TxReport) (txs : List Transaction),
      (runTxRows u cats rows rep txs).1 = none ↔
        ∃ r ∈ rows, processTransactionRow u cats r.2 = .crashed := by
  intro rows
  induction rows with
  | nil => intro rep txs; simp [runTxRows]
  | cons r rest ih =>
      intro rep txs
      cases hout : processTransactionRow u cats r.2 with
      | created t =>
          simp only [runTxRows, hout]
          rw [ih]
          constructor
          · rintro ⟨r2, hr2, hc⟩
            exact ⟨r2, List.mem_cons_of_mem _ hr2, hc⟩
          · rintro ⟨r2, hr2, hc⟩
            rcases List.mem_cons.mp hr2 with heq | h2
            · subst heq
              rw [hout] at hc
              exact absurd hc (by simp)
            · exact ⟨r2, h2, hc⟩
      | failed k =>
          simp only [runTxRows, hout]
          rw [ih]
          constructor
          · rintro ⟨r2, hr2, hc⟩
            exact ⟨r2, List.mem_cons_of_mem _ hr2, hc⟩
          · rintro ⟨r2, hr2, hc⟩
            rcases List.mem_cons.mp hr2 with heq | h2
            · subst heq
              rw [hout] at hc
              exact absurd hc (by simp)
            · exact ⟨r2, h2, hc⟩
      | crashed =>
          simp only [runTxRows, hout]
          constructor
          · intro _
            exact ⟨r, List.mem_cons_self r rest, hout⟩
          · intro _
            trivial

/-- C3 counterexample: a format-accepted CSV whose first data row has the
amount cell `nan` makes the run abort at the `amount <= 0` comparison — no
report is returned and the later, valid row is never processed — whereas
the same valid row alone imports with one created record. -/
theorem transaction_import_totality_counterexample :
    read_uploaded_rows nanAmountFile = some [nanAmountRow, okAmountRow] ∧
    processTransactionRow 7 salarioCats nanAmountRow.2 = .crashed ∧
    import_transactions_rows 7 salarioCats [nanAmountRow, okAmountRow] =
      (none, []) ∧
    (import_transactions_rows 7 salarioCats [okAmountRow]).1 =
      some { totalRows := 1, created := 1, errors := [] } ∧
    (import_transactions_rows 7 salarioCats [okAmountRow]).2.length = 1 := by
  refine ⟨by decide, by decide, by decide, by decide, by decide⟩

/-- C3 (amended): the transaction import processes every data row of an
accepted file and each row yields exactly one outcome — a created record
with the parsed field values or one row error — with
created + errors = totalRows and no cross-row interference, provided the
run completes; the run completes (returns a report) exactly when no row's
amount cell parses to `NaN`, a NaN amount instead raising an uncaught
`InvalidOperation` that aborts the run, skipping all later rows. -/
theorem transaction_import_completed_run :
    (∀ u : Nat, ∀ cats : List Category, ∀ f : UploadedFile,
        ∀ rows : List (Nat × Row), read_uploaded_rows f = some rows →
        import_transactions_from_file u cats f =
          import_transactions_rows u cats rows) ∧
    (∀ u : Nat, ∀ cats : List Category, ∀ rows : List (Nat × Row),
        ((import_transactions_rows u cats rows).1 = none ↔
          ∃ r ∈ rows, processTransactionRow u cats r.2 = .crashed)) ∧
    (∀ u : Nat, ∀ cats : List Category, ∀ rows : List (Nat × Row),
        ∀ rep : TxReport,
        (import_transactions_rows u cats rows).1 = some rep →
        rep.totalRows = rows.length ∧
        rep.created + rep.errors.length = rows.length ∧
        rep.created = (import_transactions_rows u cats rows).2.length ∧
        (import_transactions_rows u cats rows).2 =
          rows.filterMap (outcomeRecord u cats) ∧
        rep.errors = rows.filterMap (outcomeError u cats)) ∧
    (∀ u : Nat, ∀ cats : List Category, ∀ row : Row,
        ∀ tv av dv cv : Value, ∀ pt : TxType, ∀ neg : Bool, ∀ co : Nat,
        ∀ e : Int, ∀ pd : PDate, ∀ c : Category,
        get_value row typeKeys = some tv →
        get_value row amountKeys = some av →
        get_value row dateKeys = some dv →
        get_value row categoryKeys = some cv →
        pyFalsy tv = false → av ≠ .vstr [] → pyFalsy dv = false →
        pyFalsy cv = false →
        parse_type tv = some pt →
        parse_amount_result av = .ok (.finite neg co e) →
        parse_date dv = some pd →
        resolveCategory u cats cv pt = some c →
        transactionCleanOk u pt neg co e c
          (pyStrip (pyStr (orEmptyStr (get_value row descriptionKeys)))) = true →
        processTransactionRow u cats row =
          .created ⟨u, pt, decimalVal neg co e, pd, c.id,
            pyStrip (pyStr (orEmptyStr (get_value row descriptionKeys))),
            pyStrip (pyStr (orEmptyStr (get_value row notesKeys))),
            parse_bool (get_value row recurringKeys)⟩) := by
  refine ⟨?_, ?_, ?_, ?_⟩
  · intro u cats f rows hr
    simp [import_transactions_from_file, hr]
  · intro u cats rows
    exact runTxRows_none_iff u cats rows _ _
  · intro u cats rows rep h
    have hrun : runTxRows u cats rows
        { totalRows := rows.length, created := 0, errors := [] } [] =
        (some rep, (import_transactions_rows u cats rows).2) := by
      show import_transactions_rows u cats rows = _
      rw [← h]
    obtain ⟨h1, h2, h3, h4, h5⟩ := runTxRows_completed u cats rows _ _ _ _ hrun
    dsimp only at h1 h2 h4 h5
    refine ⟨h1, by simpa using h2, ?_, by simpa using h3, by simpa using h4⟩
    simp only [List.length_nil] at h5
    omega
  · intro u cats row tv av dv cv pt neg co e pd c hty ham hda hca hft hfa hfd
      hfc hpt hres hpd hre hclean
    have hfa2 : amountAbsent (some av) = false := by
      simp [amountAbsent, hfa]
    simp only [processTransactionRow, hty, ham, hda, hca, optFalsy, hfa2, hft,
      hfd, hfc, Bool.or_self, Bool.or_false, Bool.false_or, Bool.false_eq_true,
      if_false, hpt, hres, hpd, hre, hclean, if_true]

theorem transaction_import_completed_run_witness :
    (read_uploaded_rows ⟨"x.csv".toList, [okAmountRow]⟩ = some [okAmountRow] ∧
      import_transactions_from_file 7 salarioCats ⟨"x.csv".toList, [okAmountRow]⟩ =
        import_transactions_rows 7 salarioCats [okAmountRow]) ∧
    ((import_transactions_rows 7 salarioCats [okAmountRow]).1 =
        some { totalRows := 1, created := 1, errors := [] } ∧
      (1 : Nat) + (0 : Nat) = ([okAmountRow] : List (Nat × Row)).length) ∧
    processTransactionRow 7 salarioCats okAmountRow.2 =
      .created ⟨7, .INCOME, decimalVal false 10 0, ⟨2026, 2, 5⟩, 1, [], [], false⟩ :=
  ⟨⟨by decide,
      transaction_import_completed_run.1 7 salarioCats
        ⟨"x.csv".toList, [okAmountRow]⟩ [okAmountRow] (by decide)⟩,
    ⟨by decide,
      by
        have h := (transaction_import_completed_run.2.2.1 7 salarioCats
          [okAmountRow] { totalRows := 1, created := 1, errors := [] }
          (by decide)).2.1
        exact h⟩,
    transaction_import_completed_run.2.2.2 7 salarioCats okAmountRow.2
      (.vstr "income".toList) (.vstr "10".toList) (.vstr "2026-02-05".toList)
      (.vstr "Salario".toList) .INCOME false 10 0 ⟨2026, 2, 5⟩
      ⟨1, 7, "Salario".toList, .INCOME⟩
      (by decide) (by decide) (by decide) (by decide) (by decide) (by decide)
      (by decide) (by decide) (by decide) (by decide) (by decide) (by decide)
      (by decide)⟩

/-- C9 counterexample: format detection is not the only run-fatal failure —
this format-accepted CSV is read successfully, yet its import aborts with an
uncaught `InvalidOperation` (NaN amount) and returns no report. -/
theorem unsupported_format_only_fatal_counterexample :
    read_uploaded_rows nanAmountFile = some [nanAmountRow, okAmountRow] ∧
    (import_transactions_from_file 7 salarioCats nanAmountFile).1 = none ∧
    (import_transactions_from_file 7 salarioCats nanAmountFile).2 = [] := by
  refine ⟨by decide, by decide, by decide⟩

/-- C9 (amended): a file whose lower-cased name ends in neither `.csv` nor
`.xlsx` fails with `UnsupportedFormat` before any row is read — no rows
processed, no records created, no report, store untouched.  For accepted
files the category import always completes with a report, while the
transaction import completes with a report exactly when no row's amount
cell parses to `NaN`: the NaN crash is the one further run-fatal failure
beyond format detection and an unreadable file. -/
theorem format_dispatch_fatal_rule :
    (∀ u : Nat, ∀ store cats : List Category, ∀ f : UploadedFile,
        List.isSuffixOf ".csv".toList (lowerStr f.filename) = false →
        List.isSuffixOf ".xlsx".toList (lowerStr f.filename) = false →
        read_uploaded_rows f = none ∧
        import_categories_from_file u store f = (none, store) ∧
        import_transactions_from_file u cats f = (none, [])) ∧
    (∀ u : Nat, ∀ store : List Category, ∀ f : UploadedFile,
        ∀ rows : List (Nat × Row), read_uploaded_rows f = some rows →
        import_categories_from_file u store f =
          (some (import_categories_rows u store rows).1,
            (import_categories_rows u store rows).2)) ∧
    (∀ u : Nat, ∀ cats : List Category, ∀ f : UploadedFile,
        ∀ rows : List (Nat × Row), read_uploaded_rows f = some rows →
        import_transactions_from_file u cats f =
          import_transactions_rows u cats rows ∧
        ((import_transactions_from_file u cats f).1 = none ↔
          ∃ r ∈ rows, processTransactionRow u cats r.2 = .crashed)) := by
  refine ⟨?_, ?_, ?_⟩
  · intro u store cats f h1 h2
    have hr : read_uploaded_rows f = none := by
      simp only [read_uploaded_rows, h1, h2]
      rfl
    exact ⟨hr, by simp [import_categories_from_file, hr],
      by simp [import_transactions_from_file, hr]⟩
  · intro u store f rows hr
    simp [import_categories_from_file, hr]
  · intro u cats f rows hr
    have he : import_transactions_from_file u cats f =
        import_transactions_rows u cats rows := by
      simp [import_transactions_from_file, hr]
    refine ⟨he, ?_⟩
    rw [he]
    exact runTxRows_none_iff u cats rows _ _

theorem format_dispatch_fatal_rule_witness :
    (List.isSuffixOf ".csv".toList (lowerStr "data.txt".toList) = false ∧
      List.isSuffixOf ".xlsx".toList (lowerStr "data.txt".toList) = false ∧
      import_categories_from_file 0 [] ⟨"data.txt".toList, []⟩ = (none, []) ∧
      import_transactions_from_file 0 [] ⟨"data.txt".toList, []⟩ = (none, [])) ∧
    (read_uploaded_rows ⟨"Data.CSV".toList, []⟩ = some [] ∧
      import_categories_from_file 0 [] ⟨"Data.CSV".toList, []⟩ =
        (some (import_categories_rows 0 [] []).1,
          (import_categories_rows 0 [] []).2)) ∧
    ((import_transactions_from_file 7 salarioCats nanAmountFile).1 = none ↔
      ∃ r ∈ [nanAmountRow, okAmountRow],
        processTransactionRow 7 salarioCats r.2 = .crashed) :=
  ⟨⟨by decide, by decide,
      (format_dispatch_fatal_rule.1 0 [] [] ⟨"data.txt".toList, []⟩
        (by decide) (by decide)).2.1,
      (format_dispatch_fatal_rule.1 0 [] [] ⟨"data.txt".toList, []⟩
        (by decide) (by decide)).2.2⟩,
    ⟨by decide,
      format_dispatch_fatal_rule.2.1 0 [] ⟨"Data.CSV".toList, []⟩ [] (by decide)⟩,
    (format_dispatch_fatal_rule.2.2 7 salarioCats nanAmountFile
      [nanAmountRow, okAmountRow] (by decide)).2⟩


theorem keyTotal_cons (a : Str) (b : ℚ) (l : List (Str × ℚ)) (k : Str) :
    keyTotal ((a, b) :: l) k = (if a = k then b else 0) + keyTotal l k := by
  unfold keyTotal
  rw [List.filter_cons]
  by_cases h : a = k
  · simp [h]
  · simp [h]

theorem keyTotal_upsertAdd (acc : List (Str × ℚ)) (k0 : Str) (v : ℚ) (k : Str) :
    keyTotal (upsertAdd acc k0 v) k =
      keyTotal acc k + (if k0 = k then v else 0) := by
  induction acc with
  | nil =>
      unfold upsertAdd
      rw [keyTotal_cons]
      by_cases h : k0 = k
      · simp [keyTotal, h]
      · simp [keyTotal, h]
  | cons hd tl ih =>
      obtain ⟨a, b⟩ := hd
      unfold upsertAdd
      by_cases h : a = k0
      · subst h
        rw [if_pos rfl, keyTotal_cons, keyTotal_cons]
        by_cases hk : a = k
        · simp only [if_pos hk]
          ring
        · simp only [if_neg hk]
          ring
      · rw [if_neg h, keyTotal_cons, keyTotal_cons, ih]
        ring

theorem keyTotal_inner_foldl (qs : List AggRow) :
    ∀ acc : List (Str × ℚ), ∀ k : Str,
      keyTotal (qs.foldl (fun a row =>
          upsertAdd a (bucketName row.categoryName) (rowTotal row.total)) acc) k =
        keyTotal acc k + contribTotal qs k := by
  induction qs with
  | nil => intro acc k; simp [contribTotal, keyTotal]
  | cons row rest ih =>
      intro acc k
      rw [List.foldl_cons, ih, keyTotal_upsertAdd]
      unfold contribTotal
      rw [List.filter_cons]
      by_cases h : bucketName row.categoryName = k
      · rw [if_pos h,
          if_pos (show decide (bucketName row.categoryName = k) = true from by simp [h]),
          List.map_cons, List.sum_cons]
        ring
      · rw [if_neg h,
          if_neg (show ¬ decide (bucketName row.categoryName = k) = true from by simp [h])]
        ring

theorem keyTotal_combineMerged (qss : List (List AggRow)) :
    ∀ k : Str, keyTotal (combineMerged qss) k = contribTotal qss.flatten k := by
  suffices h : ∀ acc : List (Str × ℚ), ∀ k : Str,
      keyTotal (qss.foldl (fun acc qs =>
          qs.foldl (fun a row =>
            upsertAdd a (bucketName row.categoryName) (rowTotal row.total)) acc)
        acc) k = keyTotal acc k + contribTotal qss.flatten k by
    intro k
    have := h [] k
    simpa [combineMerged, keyTotal] using this
  induction qss with
  | nil => intro acc k; simp [contribTotal, keyTotal]
  | cons qs rest ih =>
      intro acc k
      rw [List.foldl_cons, ih, keyTotal_inner_foldl]
      unfold contribTotal
      rw [List.flatten_cons, List.filter_append, List.map_append, List.sum_append]
      ring

theorem totalsGe_trans (a b c : Str × ℚ) (hab : totalsGe a b) (hbc : totalsGe b c) :
    totalsGe a c := by
  simp only [totalsGe, decide_eq_true_eq] at *
  exact le_trans hbc hab

theorem totalsGe_total (a b : Str × ℚ) : totalsGe a b || totalsGe b a := by
  simp only [totalsGe]
  rcases le_total a.2 b.2 with h | h <;> simp [h]

theorem keyTotal_perm {l l' : List (Str × ℚ)} (h : l.Perm l') (k : Str) :
    keyTotal l k = keyTotal l' k := by
  unfold keyTotal
  exact List.Perm.sum_eq (List.Perm.map _ (List.Perm.filter _ h))

/-- C6: `combine_category_totals` combines per-category sums from the two
sources into one mapping keyed by category name (adding totals for names in
both, bucketing rows with no resolvable name under the fixed placeholder),
and returns the entries sorted by descending total, ties keeping
first-encountered insertion order; merging `{Food: 100}` with
`{Food: 200, Transport: 50}` yields `[(Food, 300), (Transport, 50)]`. -/
theorem category_merge_rule :
    (∀ qss : List (List AggRow), ∀ k : Str,
        keyTotal (combine_category_totals qss) k = contribTotal qss.flatten k) ∧
    (∀ qss : List (List AggRow),
        (combine_category_totals qss).Pairwise (fun a b => b.2 ≤ a.2)) ∧
    (∀ qss : List (List AggRow), ∀ a b : Str × ℚ, totalsGe a b = true →
        [a, b].Sublist (combineMerged qss) →
        [a, b].Sublist (combine_category_totals qss)) ∧
    (∀ qss : List (List AggRow),
        (combine_category_totals qss).Perm (combineMerged qss)) ∧
    bucketName none = semCategoria ∧
    bucketName (some []) = semCategoria ∧
    combine_category_totals
        [[⟨some "Food".toList, some 100⟩],
          [⟨some "Food".toList, some 200⟩, ⟨some "Transport".toList, some 50⟩]] =
      [("Food".toList, 300), ("Transport".toList, 50)] := by
  refine ⟨?_, ?_, ?_, ?_, rfl, rfl, ?_⟩
  · intro qss k
    unfold combine_category_totals
    rw [keyTotal_perm (List.mergeSort_perm (combineMerged qss) totalsGe) k]
    exact keyTotal_combineMerged qss k
  · intro qss
    have h := List.sorted_mergeSort
      (fun a b c hab hbc => totalsGe_trans a b c hab hbc)
      (fun a b => totalsGe_total a b) (combineMerged qss)
    exact h.imp (fun {a b} hab => by
      simpa [totalsGe, decide_eq_true_eq] using hab)
  · intro qss a b hab hsub
    exact List.pair_sublist_mergeSort
      (fun a b c hab hbc => totalsGe_trans a b c hab hbc)
      (fun a b => totalsGe_total a b) hab hsub
  · intro qss
    exact List.mergeSort_perm (combineMerged qss) totalsGe
  · show (combineMerged _).mergeSort totalsGe = _
    have hm : combineMerged
        [[⟨some "Food".toList, some 100⟩,],
          [⟨some "Food".toList, some 200⟩, ⟨some "Transport".toList, some 50⟩]] =
        [("Food".toList, (100 : ℚ) + 200), ("Transport".toList, 50)] := rfl
    rw [hm, show (100 : ℚ) + 200 = 300 by norm_num]
    apply List.mergeSort_of_sorted
    simp only [List.pairwise_cons, List.mem_singleton, List.not_mem_nil,
      false_implies, implies_true, List.Pairwise.nil, and_true, totalsGe]
    intro b hb
    subst hb
    norm_num

theorem category_merge_rule_witness :
    totalsGe ("A".toList, (50 : ℚ)) ("B".toList, (50 : ℚ)) = true ∧
    [("A".toList, (50 : ℚ)), ("B".toList, (50 : ℚ))].Sublist
      (combineMerged [[⟨some "A".toList, some 50⟩, ⟨some "B".toList, some 50⟩]]) ∧
    [("A".toList, (50 : ℚ)), ("B".toList, (50 : ℚ))].Sublist
      (combine_category_totals
        [[⟨some "A".toList, some 50⟩, ⟨some "B".toList, some 50⟩]]) :=
  ⟨by decide,
    by rw [show combineMerged [[⟨some "A".toList, some 50⟩, ⟨some "B".toList, some 50⟩]] =
        [("A".toList, (50 : ℚ)), ("B".toList, (50 : ℚ))] from rfl],
    category_merge_rule.2.2.1 [[⟨some "A".toList, some 50⟩, ⟨some "B".toList, some 50⟩]]
      ("A".toList, (50 : ℚ)) ("B".toList, (50 : ℚ)) (by decide)
      (by rw [show combineMerged [[⟨some "A".toList, some 50⟩, ⟨some "B".toList, some 50⟩]] =
          [("A".toList, (50 : ℚ)), ("B".toList, (50 : ℚ))] from rfl])⟩

/-! ## Lemmas about the credit-card summary -/

theorem mkCardSummary_mem (u : Nat) (cards : List CreditCard)
    (expenses : List CardExpense) (payments : List CardPayment) (m y : Nat)
    (c : CreditCard) (hc : c ∈ cards) (hu : c.user = u) :
    mkCardSummary u expenses payments m y c ∈
      (build_credit_card_summary u cards expenses payments m y).summaries := by
  unfold build_credit_card_summary
  apply List.mem_map_of_mem
  rw [List.mem_mergeSort]
  exact List.mem_filter.mpr ⟨hc, by simp [hu]⟩

theorem cardExpenseTotal_eq_zero {u : Nat} {expenses : List CardExpense}
    {m y : Nat} {cid : Nat}
    (h : ∀ e ∈ expenses, e.user = u → e.cardId = cid → inMonth m y e.date = false) :
    cardExpenseTotal u expenses m y cid = 0 := by
  unfold cardExpenseTotal
  have hnil : (monthExpenses u expenses m y).filter (fun e => e.cardId = cid) = [] := by
    rw [List.filter_eq_nil_iff]
    intro e he
    obtain ⟨he1, he2⟩ := List.mem_filter.mp he
    simp only [Bool.and_eq_true, decide_eq_true_eq] at he2
    intro hcard
    have := h e he1 he2.1 (by simpa using hcard)
    rw [this] at he2
    exact Bool.noConfusion he2.2
  rw [hnil]
  rfl

theorem cardPaymentTotal_eq_zero {u : Nat} {payments : List CardPayment}
    {m y : Nat} {cid : Nat}
    (h : ∀ p ∈ payments, p.user = u → p.cardId = cid → inMonth m y p.date = false) :
    cardPaymentTotal u payments m y cid = 0 := by
  unfold cardPaymentTotal
  have hnil : (monthPayments u payments m y).filter (fun p => p.cardId = cid) = [] := by
    rw [List.filter_eq_nil_iff]
    intro p hp
    obtain ⟨hp1, hp2⟩ := List.mem_filter.mp hp
    simp only [Bool.and_eq_true, decide_eq_true_eq] at hp2
    intro hcard
    have := h p hp1 hp2.1 (by simpa using hcard)
    rw [this] at hp2
    exact Bool.noConfusion hp2.2
  rw [hnil]
  rfl

/-- C7: for every (year, month) selection the credit-card summary has one
entry per card of the owner — cards with no activity in the month included,
with zero expense, payment and open balance — each entry carrying the
month-restricted expense and payment totals of its card with
`openBalance = expenseTotal - paymentTotal`, and the context reporting the
sums of those totals across all cards. -/
theorem credit_card_monthly_summary :
    (∀ u : Nat, ∀ cards : List CreditCard, ∀ expenses : List CardExpense,
        ∀ payments : List CardPayment, ∀ m y : Nat,
        (build_credit_card_summary u cards expenses payments m y).summaries.length =
          (cards.filter (fun c => c.user = u)).length) ∧
    (∀ u : Nat, ∀ cards : List CreditCard, ∀ expenses : List CardExpense,
        ∀ payments : List CardPayment, ∀ m y : Nat, ∀ c : CreditCard,
        c ∈ cards → c.user = u →
        mkCardSummary u expenses payments m y c ∈
          (build_credit_card_summary u cards expenses payments m y).summaries) ∧
    (∀ u : Nat, ∀ cards : List CreditCard, ∀ expenses : List CardExpense,
        ∀ payments : List CardPayment, ∀ m y : Nat, ∀ s : CardSummary,
        s ∈ (build_credit_card_summary u cards expenses payments m y).summaries →
        s.expenseTotal = cardExpenseTotal u expenses m y s.cardId ∧
        s.paymentTotal = cardPaymentTotal u payments m y s.cardId ∧
        s.openBalance = s.expenseTotal - s.paymentTotal) ∧
    (∀ u : Nat, ∀ cards : List CreditCard, ∀ expenses : List CardExpense,
        ∀ payments : List CardPayment, ∀ m y : Nat,
        (build_credit_card_summary u cards expenses payments m y).totalExpense =
          (((build_credit_card_summary u cards expenses payments m y).summaries.map
            (fun s => s.expenseTotal)).sum) ∧
        (build_credit_card_summary u cards expenses payments m y).totalPayment =
          (((build_credit_card_summary u cards expenses payments m y).summaries.map
            (fun s => s.paymentTotal)).sum)) ∧
    (∀ u : Nat, ∀ cards : List CreditCard, ∀ expenses : List CardExpense,
        ∀ payments : List CardPayment, ∀ m y : Nat, ∀ c : CreditCard,
        c ∈ cards → c.user = u →
        (∀ e ∈ expenses, e.user = u → e.cardId = c.id → inMonth m y e.date = false) →
        (∀ p ∈ payments, p.user = u → p.cardId = c.id → inMonth m y p.date = false) →
        (⟨c.id, 0, 0, 0⟩ : CardSummary) ∈
          (build_credit_card_summary u cards expenses payments m y).summaries) := by
  refine ⟨?_, ?_, ?_, ?_, ?_⟩
  · intro u cards expenses payments m y
    unfold build_credit_card_summary
    simp
  · intro u cards expenses payments m y c hc hu
    exact mkCardSummary_mem u cards expenses payments m y c hc hu
  · intro u cards expenses payments m y s hs
    unfold build_credit_card_summary at hs
    simp only [List.mem_map] at hs
    obtain ⟨c, _, hcs⟩ := hs
    subst hcs
    exact ⟨rfl, rfl, rfl⟩
  · intro u cards expenses payments m y
    exact ⟨rfl, rfl⟩
  · intro u cards expenses payments m y c hc hu hexp hpay
    have hzero : mkCardSummary u expenses payments m y c =
        (⟨c.id, 0, 0, 0⟩ : CardSummary) := by
      unfold mkCardSummary
      rw [cardExpenseTotal_eq_zero hexp, cardPaymentTotal_eq_zero hpay]
      simp
    rw [← hzero]
    exact mkCardSummary_mem u cards expenses payments m y c hc hu

theorem credit_card_monthly_summary_witness :
    (⟨10, 1, "Nubank".toList⟩ : CreditCard) ∈ [⟨10, 1, "Nubank".toList⟩] ∧
    (⟨10, 0, 0, 0⟩ : CardSummary) ∈
      (build_credit_card_summary 1 [⟨10, 1, "Nubank".toList⟩] [] [] 2 2026).summaries ∧
    (build_credit_card_summary 1 [⟨10, 1, "Nubank".toList⟩] [] [] 2 2026).summaries.length =
      ([⟨10, 1, "Nubank".toList⟩].filter
        (fun c : CreditCard => c.user = 1)).length :=
  ⟨List.mem_singleton.mpr rfl,
    credit_card_monthly_summary.2.2.2.2 1 [⟨10, 1, "Nubank".toList⟩] [] [] 2 2026
      ⟨10, 1, "Nubank".toList⟩ (List.mem_singleton.mpr rfl) rfl
      (by simp) (by simp),
    credit_card_monthly_summary.1 1 [⟨10, 1, "Nubank".toList⟩] [] [] 2 2026⟩

/-! ## Lemmas about the category import -/

theorem covers_iff_duplicateExists {u : Nat} {store : List Category} {nm : Str}
    {pt : TxType} : duplicateExists u store pt nm = true ↔ covers u store nm pt := by
  simp [duplicateExists, covers, List.any_eq_true, decide_eq_true_eq, and_assoc]

theorem processCategoryRow_of_parse_some {row : Row} {nm : Str} {pt : TxType}
    (h : categoryRowParse row = some (nm, pt)) (u : Nat) (store : List Category) :
    processCategoryRow u store row =
      if duplicateExists u store pt nm then .skipped
      else if nm.length ≤ 100 then .created ⟨nextCatId store, u, nm, pt⟩
      else .failed .validationFailed := by
  simp only [categoryRowParse] at h
  simp only [processCategoryRow]
  cases hn : get_value row nameKeys with
  | none => simp [hn, optFalsy] at h
  | some nv =>
      cases ht : get_value row typeKeys with
      | none => simp [hn, ht, optFalsy] at h
      | some tv =>
          simp only [hn, ht] at h ⊢
          by_cases hf : (optFalsy (some nv) || optFalsy (some tv)) = true
          · rw [if_pos hf] at h
            exact Option.noConfusion h
          · rw [if_neg hf] at h
            rw [if_neg hf]
            cases hp : parse_type tv with
            | none =>
                rw [hp] at h
                exact Option.noConfusion h
            | some pt2 =>
                simp only [hp] at h ⊢
                by_cases he : (pyStrip (pyStr nv)).isEmpty = true
                · rw [if_pos he] at h
                  exact Option.noConfusion h
                · rw [if_neg he] at h
                  rw [if_neg he]
                  injection h with h
                  have h1 : pyStrip (pyStr nv) = nm := congrArg Prod.fst h
                  have h2 : pt2 = pt := congrArg Prod.snd h
                  subst h1
                  subst h2
                  rfl

theorem processCategoryRow_of_parse_none {row : Row}
    (h : categoryRowParse row = none) (u : Nat) (store : List Category) :
    ∃ k : ErrKind, processCategoryRow u store row = .failed k := by
  simp only [categoryRowParse] at h
  simp only [processCategoryRow]
  cases hn : get_value row nameKeys with
  | none => simp [hn, optFalsy]
  | some nv =>
      cases ht : get_value row typeKeys with
      | none =>
          refine ⟨.missingFields, ?_⟩
          simp [hn, ht, optFalsy]
      | some tv =>
          simp only [hn, ht] at h ⊢
          by_cases hf : (optFalsy (some nv) || optFalsy (some tv)) = true
          · rw [if_pos hf]
            exact ⟨.missingFields, rfl⟩
          · rw [if_neg hf] at h
            rw [if_neg hf]
            cases hp : parse_type tv with
            | none => exact ⟨.invalidType, rfl⟩
            | some pt2 =>
                simp only [hp] at h
                by_cases he : (pyStrip (pyStr nv)).isEmpty = true
                · exact ⟨.emptyName, by simp only [if_pos he]⟩
                · rw [if_neg he] at h
                  exact Option.noConfusion h

theorem catFoldl_store_mono (u : Nat) :
    ∀ (rows : List (Nat × Row)) (acc : CatReport × List Category)
      (c : Category), c ∈ acc.2 → c ∈ (rows.foldl (catStep u) acc).2 := by
  intro rows
  induction rows with
  | nil => intro acc c hc; simpa using hc
  | cons r rest ih =>
      intro acc c hc
      rw [List.foldl_cons]
      apply ih
      unfold catStep
      cases processCategoryRow u acc.2 r.2 with
      | created c2 => simpa using Or.inl hc
      | skipped => simpa using hc
      | failed k => simpa using hc

theorem catFoldl_covering (u : Nat) :
    ∀ (rows : List (Nat × Row)) (acc : CatReport × List Category)
      (r : Nat × Row) (nm : Str) (pt : TxType), r ∈ rows →
      categoryRowParse r.2 = some (nm, pt) → nm.length ≤ 100 →
      covers u ((rows.foldl (catStep u) acc).2) nm pt := by
  intro rows
  induction rows with
  | nil => intro acc r nm pt hr; exact absurd hr (List.not_mem_nil r)
  | cons r0 rest ih =>
      intro acc r nm pt hr hparse hlen
      rw [List.foldl_cons]
      rcases List.mem_cons.mp hr with heq | hmem
      · subst heq
        have hout := processCategoryRow_of_parse_some hparse u acc.2
        by_cases hdup : duplicateExists u acc.2 pt nm = true
        · obtain ⟨c, hc, hcp⟩ := covers_iff_duplicateExists.mp hdup
          have hstep : (catStep u acc r).2 = acc.2 := by
            rw [if_pos hdup] at hout
            simp [catStep, hout]
          exact ⟨c, catFoldl_store_mono u rest _ c (hstep ▸ hc), hcp⟩
        · have hout2 : processCategoryRow u acc.2 r.2 =
              .created ⟨nextCatId acc.2, u, nm, pt⟩ := by
            rw [if_neg hdup, if_pos hlen] at hout
            exact hout
          have hc : (⟨nextCatId acc.2, u, nm, pt⟩ : Category) ∈ (catStep u acc r).2 := by
            simp [catStep, hout2]
          exact ⟨_, catFoldl_store_mono u rest _ _ hc, rfl, rfl, rfl⟩
      · exact ih (catStep u acc r0) r nm pt hmem hparse hlen

theorem catFoldl_second_run (u : Nat) :
    ∀ (rows : List (Nat × Row)) (acc : CatReport × List Category),
      (∀ r ∈ rows, ∀ nm : Str, ∀ pt : TxType,
        categoryRowParse r.2 = some (nm, pt) → nm.length ≤ 100 →
        covers u acc.2 nm pt) →
      (rows.foldl (catStep u) acc).1.created = acc.1.created ∧
      (rows.foldl (catStep u) acc).2 = acc.2 ∧
      (rows.foldl (catStep u) acc).1.skipped +
          (rows.foldl (catStep u) acc).1.errors.length =
        acc.1.skipped + acc.1.errors.length + rows.length := by
  intro rows
  induction rows with
  | nil => intro acc _; exact ⟨rfl, rfl, by simp⟩
  | cons r rest ih =>
      intro acc hcov
      rw [List.foldl_cons]
      have hstep : (catStep u acc r).2 = acc.2 ∧
          (catStep u acc r).1.created = acc.1.created ∧
          (catStep u acc r).1.skipped + (catStep u acc r).1.errors.length =
            acc.1.skipped + acc.1.errors.length + 1 := by
        cases hparse : categoryRowParse r.2 with
        | none =>
            obtain ⟨k, hout⟩ := processCategoryRow_of_parse_none hparse u acc.2
            exact ⟨by simp [catStep, hout], by simp [catStep, hout],
              by simp [catStep, hout] ; omega⟩
        | some nmpt =>
            obtain ⟨nm, pt⟩ := nmpt
            have hout := processCategoryRow_of_parse_some hparse u acc.2
            by_cases hlen : nm.length ≤ 100
            · have hdup : duplicateExists u acc.2 pt nm = true :=
                covers_iff_duplicateExists.mpr
                  (hcov r (List.mem_cons_self r rest) nm pt hparse hlen)
              rw [if_pos hdup] at hout
              exact ⟨by simp [catStep, hout], by simp [catStep, hout],
                by simp [catStep, hout] ; omega⟩
            · by_cases hdup : duplicateExists u acc.2 pt nm = true
              · rw [if_pos hdup] at hout
                exact ⟨by simp [catStep, hout], by simp [catStep, hout],
                  by simp [catStep, hout] ; omega⟩
              · rw [if_neg hdup, if_neg hlen] at hout
                exact ⟨by simp [catStep, hout], by simp [catStep, hout],
                  by simp [catStep, hout] ; omega⟩
      obtain ⟨hs2, hs1, hs3⟩ := hstep
      have hcov2 : ∀ r2 ∈ rest, ∀ nm : Str, ∀ pt : TxType,
          categoryRowParse r2.2 = some (nm, pt) → nm.length ≤ 100 →
          covers u (catStep u acc r).2 nm pt := by
        intro r2 hr2 nm pt hp hl
        rw [hs2]
        exact hcov r2 (List.mem_cons_of_mem r hr2) nm pt hp hl
      obtain ⟨ih1, ih2, ih3⟩ := ih (catStep u acc r) hcov2
      refine ⟨by rw [ih1, hs1], by rw [ih2, hs2], ?_⟩
      rw [ih3, List.length_cons]
      omega

/-- C4 counterexample: a categories file with one malformed row (a `name` but
no `type` column) makes the second run report that row as an error again, so
the second-run skip count is 0, not the number of data rows. -/
theorem category_import_idempotence_counterexample :
    ¬ ((import_categories_rows 0
          (import_categories_rows 0 []
            [(2, [("name".toList, some (Value.vstr "Food".toList))])]).2
          [(2, [("name".toList, some (Value.vstr "Food".toList))])]).1.skipped =
        [(2, ([("name".toList, some (Value.vstr "Food".toList))] : Row))].length) := by
  decide

/-- C4 (amended): re-importing the same categories file over the store left
by a first run creates nothing and changes nothing — every row is either
skipped as a duplicate or reported as an error exactly as in the first run,
so second-run skipped + errors = data rows (skipped equals the row count
only when no row errs); a row whose case-insensitive (name, type, owner)
already exists is skipped, not created and not an error. -/
theorem category_import_second_run :
    (∀ u : Nat, ∀ store : List Category, ∀ rows : List (Nat × Row),
        (import_categories_rows u (import_categories_rows u store rows).2
            rows).1.created = 0 ∧
        (import_categories_rows u (import_categories_rows u store rows).2
            rows).2 = (import_categories_rows u store rows).2 ∧
        (import_categories_rows u (import_categories_rows u store rows).2
              rows).1.skipped +
            (import_categories_rows u (import_categories_rows u store rows).2
              rows).1.errors.length = rows.length) ∧
    (∀ u : Nat, ∀ store : List Category, ∀ row : Row, ∀ nm : Str, ∀ pt : TxType,
        categoryRowParse row = some (nm, pt) →
        duplicateExists u store pt nm = true →
        processCategoryRow u store row = .skipped) := by
  constructor
  · intro u store rows
    have hcov : ∀ r ∈ rows, ∀ nm : Str, ∀ pt : TxType,
        categoryRowParse r.2 = some (nm, pt) → nm.length ≤ 100 →
        covers u (import_categories_rows u store rows).2 nm pt := by
      intro r hr nm pt hp hl
      exact catFoldl_covering u rows _ r nm pt hr hp hl
    obtain ⟨h1, h2, h3⟩ := catFoldl_second_run u rows
      ({ totalRows := rows.length, created := 0, skipped := 0, errors := [] },
        (import_categories_rows u store rows).2) hcov
    exact ⟨h1, h2, by simpa using h3⟩
  · intro u store row nm pt hparse hdup
    have hout := processCategoryRow_of_parse_some hparse u store
    rw [if_pos hdup] at hout
    exact hout

theorem category_import_second_run_witness :
    categoryRowParse [("name".toList, some (Value.vstr "Food".toList)),
        ("type".toList, some (Value.vstr "expense".toList))] =
      some ("Food".toList, TxType.EXPENSE) ∧
    duplicateExists 0 [⟨1, 0, "FOOD".toList, TxType.EXPENSE⟩]
      TxType.EXPENSE "Food".toList = true ∧
    processCategoryRow 0 [⟨1, 0, "FOOD".toList, TxType.EXPENSE⟩]
        [("name".toList, some (Value.vstr "Food".toList)),
          ("type".toList, some (Value.vstr "expense".toList))] =
      CatOutcome.skipped :=
  ⟨by decide, by decide,
    category_import_second_run.2 0 [⟨1, 0, "FOOD".toList, TxType.EXPENSE⟩]
      [("name".toList, some (Value.vstr "Food".toList)),
        ("type".toList, some (Value.vstr "expense".toList))]
      "Food".toList TxType.EXPENSE (by decide) (by decide)⟩

/-- C5: `_parse_date` accepts a native date/datetime directly; text is tried
against `YYYY-MM-DD`, `DD/MM/YYYY`, `DD-MM-YYYY` in that order, the first
success winning; the three reference texts all parse to 5 February 2026,
`"2026/02/05"` fails, and a text matching none of the patterns fails with an
`InvalidDate` error. -/
theorem date_formats_rule :
    (∀ d : PDate, parse_date_input (.native d) = some d) ∧
    (∀ s : Str, ∀ d : PDate, tryFormat .iso (pyStrip s) = some d →
        parseDateText s = some d) ∧
    (∀ s : Str, ∀ d : PDate, tryFormat .iso (pyStrip s) = none →
        tryFormat .dmySlash (pyStrip s) = some d → parseDateText s = some d) ∧
    (∀ s : Str, ∀ d : PDate, tryFormat .iso (pyStrip s) = none →
        tryFormat .dmySlash (pyStrip s) = none →
        tryFormat .dmyDash (pyStrip s) = some d → parseDateText s = some d) ∧
    (∀ s : Str, tryFormat .iso (pyStrip s) = none →
        tryFormat .dmySlash (pyStrip s) = none →
        tryFormat .dmyDash (pyStrip s) = none → parseDateText s = none) ∧
    parseDateText "2026-02-05".toList = some ⟨2026, 2, 5⟩ ∧
    parseDateText "05/02/2026".toList = some ⟨2026, 2, 5⟩ ∧
    parseDateText "05-02-2026".toList = some ⟨2026, 2, 5⟩ ∧
    parseDateText "2026/02/05".toList = none := by
  refine ⟨fun d => rfl, ?_, ?_, ?_, ?_, by decide, by decide, by decide, by decide⟩
  · intro s d h
    simp only [parseDateText, h]
  · intro s d h1 h2
    simp only [parseDateText, h1, h2]
  · intro s d h1 h2 h3
    simp only [parseDateText, h1, h2, h3]
  · intro s h1 h2 h3
    simp only [parseDateText, h1, h2, h3]

theorem date_formats_rule_witness :
    (tryFormat .iso (pyStrip "2026-02-05".toList) = some ⟨2026, 2, 5⟩ ∧
      parseDateText "2026-02-05".toList = some ⟨2026, 2, 5⟩) ∧
    (tryFormat .iso (pyStrip "05/02/2026".toList) = none ∧
      parseDateText "05/02/2026".toList = some ⟨2026, 2, 5⟩) ∧
    (parseDateText "05-02-2026".toList = some ⟨2026, 2, 5⟩) ∧
    (parseDateText "2026/02/05".toList = none) ∧
    parse_date_input (.native ⟨2026, 2, 5⟩) = some ⟨2026, 2, 5⟩ :=
  ⟨⟨by decide, date_formats_rule.2.1 "2026-02-05".toList ⟨2026, 2, 5⟩ (by decide)⟩,
    ⟨by decide,
      date_formats_rule.2.2.1 "05/02/2026".toList ⟨2026, 2, 5⟩ (by decide) (by decide)⟩,
    date_formats_rule.2.2.2.1 "05-02-2026".toList ⟨2026, 2, 5⟩
      (by decide) (by decide) (by decide),
    date_formats_rule.2.2.2.2.1 "2026/02/05".toList (by decide) (by decide) (by decide),
    date_formats_rule.1 ⟨2026, 2, 5⟩⟩

theorem amount_dot_only_rule_witness :
    ('.' ∈ "1.234".toList ∧ ',' ∉ "1.234".toList ∧
      parseAmountSepNorm "1.234".toList = "1.234".toList) ∧
    parseAmountSepNorm "10,5".toList = replaceChar ',' '.' "10,5".toList :=
  ⟨⟨by decide, by decide, amount_dot_only_rule.1 "1.234".toList (by decide) (by decide)⟩,
    amount_dot_only_rule.2.2.2 "10,5".toList (by decide) (by decide)⟩
